import Mathlib

set_option maxRecDepth 16384

/-!
Verification development for the healthcare chatbot decision core.

The definitions below are a shallow embedding of the Python modules
`core/safety_checker.py`, `core/rag_engine.py`, `core/conversation_manager.py`
and `core/chatbot.py`.  Python strings are modelled as `String`/`List Char`,
Python floats as exact fractions (`Frac`, interpreted into `ℚ` by
`Frac.toRat`), Python dicts keyed by strings as association lists, fallible
operations as `Option`/`Except`, timestamps as integers, and the external
embedding / vector-search backends as explicit function parameters.
-/
/-! ### Exact fraction arithmetic (the embedding of Python float scores)

All score arithmetic in the repository is on small exact values
(keyword-count ratios, fixed decimal weights), so floats are modelled as
unreduced integer fractions.  Every fraction built by the embedded code has
a positive denominator (`Frac.Pos`); `Frac.toRat` interprets a fraction as
a rational number. -/
structure Frac where
  num : Int
  den : Int
deriving DecidableEq

/-- Interpretation of a fraction as a rational number. -/
def Frac.toRat (f : Frac) : ℚ := (f.num : ℚ) / (f.den : ℚ)

/-- The denominators produced by the embedded code are positive. -/
def Frac.Pos (f : Frac) : Prop := 0 < f.den

instance (f : Frac) : Decidable f.Pos := by
  unfold Frac.Pos
  infer_instance

/-- Embed an integer. -/
def Frac.ofInt (n : Int) : Frac := ⟨n, 1⟩

/-- Fraction literal `a / b` (with `b > 0` in all uses). -/
def Frac.mk' (a b : Int) : Frac := ⟨a, b⟩

def Frac.mul (a b : Frac) : Frac := ⟨a.num * b.num, a.den * b.den⟩

def Frac.add (a b : Frac) : Frac := ⟨a.num * b.den + b.num * a.den, a.den * b.den⟩

def Frac.sub (a b : Frac) : Frac := ⟨a.num * b.den - b.num * a.den, a.den * b.den⟩

/-- Division, keeping the denominator positive when the divisor is
negative.  (Division by a fraction with zero numerator only occurs on the
`ZeroDivisionError` path, which the embedding models with `Except`.) -/
def Frac.div (a b : Frac) : Frac :=
  if b.num < 0 then ⟨-(a.num * b.den), -(a.den * b.num)⟩
  else ⟨a.num * b.den, a.den * b.num⟩

/-- Strict comparison by cross-multiplication (valid for positive
denominators). -/
def Frac.blt (a b : Frac) : Bool := a.num * b.den < b.num * a.den

/-- Non-strict comparison by cross-multiplication (valid for positive
denominators). -/
def Frac.ble (a b : Frac) : Bool := a.num * b.den ≤ b.num * a.den

/-- Python `max(a, b)`. -/
def Frac.fmax (a b : Frac) : Frac := if Frac.blt a b then b else a

/-- Python `min(a, b)`. -/
def Frac.fmin (a b : Frac) : Frac := if Frac.blt b a then b else a

/-! ### String utilities shared by the embedded modules -/
/-- ASCII lower-casing of one character, mirroring `str.lower` on the
ASCII texts the repository uses. -/
def pyLowerChar (c : Char) : Char :=
  if c.isUpper then Char.ofNat (c.toNat + 32) else c

/-- Lower-casing of a character list (`str.lower`). -/
def pyLower (cs : List Char) : List Char := cs.map pyLowerChar

/-- Whitespace characters recognised by Python `str.split()` (ASCII part). -/
def isPySpace (c : Char) : Bool :=
  c = ' ' || c = '\t' || c = '\n' || c = '\r' || c = '\x0b' || c = '\x0c'

/-- Word characters of the regex class used by the safety patterns
(ASCII letters, digits, underscore). -/
def isPyWordChar (c : Char) : Bool :=
  c.isAlpha || c.isDigit || c = '_'

/-- Helper of `pySplit`: accumulates the current token (reversed). -/
def pySplitAux : List Char → List Char → List (List Char)
  | [], acc => if acc.isEmpty then [] else [acc.reverse]
  | c :: cs, acc =>
    if isPySpace c then
      if acc.isEmpty then pySplitAux cs [] else acc.reverse :: pySplitAux cs []
    else pySplitAux cs (c :: acc)

/-- Python `str.split()`: split on whitespace runs, dropping empty tokens. -/
def pySplit (cs : List Char) : List (List Char) := pySplitAux cs []

/-- Python substring containment `needle in hay`. -/
def containsSub (needle : List Char) : List Char → Bool
  | [] => needle.isEmpty
  | c :: t => needle.isPrefixOf (c :: t) || containsSub needle t

/-- Substring containment with a `String` needle. -/
def containsSubS (needle : String) (hay : List Char) : Bool :=
  containsSub needle.data hay

/-- Insert each token into an accumulator unless already present
(order-preserving model of Python `set` construction: cardinality and
membership are all the code uses). -/
def dedupKeep (l : List (List Char)) : List (List Char) :=
  l.foldl (fun acc w => if acc.contains w then acc else acc ++ [w]) []

/-! ### A tiny matcher for the fixed safe-usage regex patterns

Each pattern used by `SafetyChecker._analyze_context` is a sequence of
literal words separated by `\s+`, optionally ending in `\w+`.  `re.search`
semantics: the pattern may match starting at any position. -/
/-- One element of a safety regex pattern. -/
inductive PatTok where
  | lit : List Char → PatTok
  | ws : PatTok
  | word : PatTok

/-- Fuel-bounded matcher: does the pattern match a prefix of `cs`?
`\s+` and `\w+` consume one mandatory character and then either stop or
continue consuming.  The fuel passed by `reSearch` always suffices. -/
def matchAt : Nat → List PatTok → List Char → Bool
  | 0, _, _ => false
  | _ + 1, [], _ => true
  | fuel + 1, PatTok.lit l :: rest, cs =>
    l.isPrefixOf cs && matchAt fuel rest (cs.drop l.length)
  | _ + 1, PatTok.ws :: _, [] => false
  | fuel + 1, PatTok.ws :: rest, c :: cs =>
    isPySpace c && (matchAt fuel rest cs || matchAt fuel (PatTok.ws :: rest) cs)
  | _ + 1, PatTok.word :: _, [] => false
  | fuel + 1, PatTok.word :: rest, c :: cs =>
    isPyWordChar c && (matchAt fuel rest cs || matchAt fuel (PatTok.word :: rest) cs)

/-- Embeds `re.search`: try the pattern at every start position. -/
def reSearch (toks : List PatTok) : List Char → Bool
  | [] => matchAt (toks.length + 1) toks []
  | c :: cs =>
    matchAt (toks.length + (c :: cs).length + 1) toks (c :: cs) || reSearch toks cs

namespace SafetyChecker

/-! ### SafetyChecker (`core/safety_checker.py`) -/
/-- Embeds `_load_risk_keywords`: the three fixed keyword categories. -/
def risk_keywords : List (String × List String) :=
  [("high_risk",
    ["diagnose", "diagnosis", "treat", "treatment", "prescribe", "prescription",
     "cure", "heal", "medicine", "medication", "drug", "surgery", "operation",
     "emergency", "urgent", "critical", "serious", "dangerous", "fatal"]),
   ("medium_risk",
    ["symptom", "pain", "ache", "hurt", "sick", "ill", "disease", "condition",
     "infection", "virus", "bacteria", "cancer", "tumor", "heart attack",
     "stroke", "diabetes", "hypertension", "asthma"]),
   ("low_risk",
    ["appointment", "schedule", "book", "visit", "consultation", "checkup",
     "routine", "preventive", "vaccination", "immunization", "screening"])]

/-- Embeds `_load_medical_terms`. -/
def medical_terms : List String :=
  ["nhs", "gp", "doctor", "physician", "nurse", "specialist", "consultant",
   "hospital", "clinic", "practice", "surgery", "pharmacy", "laboratory",
   "test", "examination", "scan", "x-ray", "blood test", "urine test"]

/-- GDPR keyword list from `_load_compliance_rules`. -/
def gdpr_keywords : List String :=
  ["personal data", "patient information", "medical record", "privacy",
   "consent", "data protection", "confidentiality"]

/-- NHS keyword list from `_load_compliance_rules`. -/
def nhs_keywords : List String :=
  ["nhs guidelines", "nhs policy", "nhs standards", "nhs protocol",
   "nhs framework", "nhs regulation"]

/-- HIPAA keyword list from `_load_compliance_rules`. -/
def hipaa_keywords : List String :=
  ["protected health information", "phi", "health insurance portability",
   "accountability act", "privacy rule", "security rule"]

/-- The ten safe-usage regex patterns of `_analyze_context`, in source
order. -/
def safe_patterns : List (List PatTok) :=
  [[PatTok.lit ("not".data), PatTok.ws, PatTok.word],
   [PatTok.lit ("cannot".data), PatTok.ws, PatTok.word],
   [PatTok.lit ("will".data), PatTok.ws, PatTok.lit ("not".data), PatTok.ws, PatTok.word],
   [PatTok.lit ("should".data), PatTok.ws, PatTok.lit ("not".data), PatTok.ws, PatTok.word],
   [PatTok.lit ("do".data), PatTok.ws, PatTok.lit ("not".data), PatTok.ws, PatTok.word],
   [PatTok.lit ("information".data), PatTok.ws, PatTok.lit ("about".data)],
   [PatTok.lit ("general".data), PatTok.ws, PatTok.lit ("information".data)],
   [PatTok.lit ("nhs".data), PatTok.ws, PatTok.lit ("guidelines".data)],
   [PatTok.lit ("consult".data), PatTok.ws, PatTok.lit ("a".data), PatTok.ws,
    PatTok.lit ("doctor".data)],
   [PatTok.lit ("see".data), PatTok.ws, PatTok.lit ("a".data), PatTok.ws,
    PatTok.lit ("healthcare".data), PatTok.ws, PatTok.lit ("professional".data)]]

/-- The `high_risk_medical` subset scanned by `_analyze_context`. -/
def high_risk_medical : List String := ["diagnose", "treat", "prescribe", "cure"]

/-- Embeds `_analyze_context(message, keywords)`: halve the multiplier per matched
safe pattern; multiply by 0.3 when a medical term co-occurs with a matched
high-risk-medical keyword. -/
def analyze_context (message : List Char) (keywords : List String) : Frac :=
  let context_score : Frac :=
    safe_patterns.foldl
      (fun cs pat => if reSearch pat message then Frac.mul cs (Frac.mk' 1 2) else cs)
      (Frac.ofInt 1)
  let medical_context := medical_terms.any (fun t => containsSubS t (pyLower message))
  if medical_context && high_risk_medical.any (fun k => keywords.contains k) then
    Frac.mul context_score (Frac.mk' 3 10)
  else context_score

/-- Embeds `_calculate_risk_score(message, risk_level)`. -/
def calculate_risk_score (message : List Char) (risk_level : String) : Frac :=
  match risk_keywords.lookup risk_level with
  | none => Frac.ofInt 0
  | some keywords =>
    let found_keywords := keywords.filter (fun k => containsSubS k message)
    if found_keywords.isEmpty then Frac.ofInt 1
    else
      let context_score := analyze_context message found_keywords
      let base_risk := Frac.div (Frac.ofInt found_keywords.length) (Frac.ofInt keywords.length)
      let adjusted_risk := Frac.mul base_risk context_score
      Frac.fmax (Frac.ofInt 0) (Frac.sub (Frac.ofInt 1) adjusted_risk)

/-- Embeds `_calculate_overall_safety`: fixed 0.6 / 0.3 / 0.1 weights. -/
def calculate_overall_safety (high medium low : Frac) : Frac :=
  Frac.add (Frac.add (Frac.mul high (Frac.mk' 6 10)) (Frac.mul medium (Frac.mk' 3 10)))
    (Frac.mul low (Frac.mk' 1 10))

/-- Embeds `_check_compliance(message)`: compounding discounts per standard. -/
def check_compliance (message : List Char) : Frac :=
  let s := Frac.ofInt 1
  let s := if gdpr_keywords.any (fun k => containsSubS k message) then
    Frac.mul s (Frac.mk' 8 10) else s
  let s := if nhs_keywords.any (fun k => containsSubS k message) then
    Frac.mul s (Frac.mk' 9 10) else s
  let s := if hipaa_keywords.any (fun k => containsSubS k message) then
    Frac.mul s (Frac.mk' 85 100) else s
  s

/-- Embeds `check_message_safety(message)`.  A `none` input models a non-string
Python value; `none` and the empty string hit the fail-closed guard.  The
body never raises (the embedding is a total function), matching the
`try/except` that maps any internal fault to 0.0. -/
def check_message_safety (message : Option String) : Frac :=
  match message with
  | none => Frac.ofInt 0
  | some m =>
    if m = "" then Frac.ofInt 0
    else
      let message_lower := pyLower m.data
      let high_risk_score := calculate_risk_score message_lower "high_risk"
      let medium_risk_score := calculate_risk_score message_lower "medium_risk"
      let low_risk_score := calculate_risk_score message_lower "low_risk"
      let safety_score :=
        calculate_overall_safety high_risk_score medium_risk_score low_risk_score
      let compliance_score := check_compliance message_lower
      Frac.fmin safety_score compliance_score

end SafetyChecker

namespace RagEngine

/-! ### RAGEngine (`core/rag_engine.py`) -/
/-- A knowledge-base record.  FAQ records store the question in `primary`
and the answer in `body`; guideline records store the title in `primary`
and the content in `body` (matching the key layout read by
`_calculate_keyword_score`). -/
structure KBRecord where
  primary : String
  body : String
  category : String
  tags : List String
deriving DecidableEq

/-- The knowledge base: FAQ list and guideline list (the `documents` list
plays no role in keyword search). -/
structure KnowledgeBase where
  faqs : List KBRecord
  guidelines : List KBRecord
deriving DecidableEq

/-- One retrieval result: id, score, source tag, record kind and the
referenced knowledge record (`none` for vector-backend results, whose
metadata lives in the backend). -/
structure RResult where
  rid : String
  score : Frac
  source : String
  kind : String
  record : Option KBRecord
deriving DecidableEq

/-- The sample NHS FAQ/guideline data of `_get_sample_nhs_data`. -/
def sample_nhs_data : KnowledgeBase :=
  { faqs :=
      [{ primary := "How do I book an appointment with my GP?",
         body := "You can book an appointment by calling your GP surgery, using the NHS app, or visiting their website. Many surgeries also offer online booking systems.",
         category := "appointments",
         tags := ["gp", "appointment", "booking"] },
       { primary := "What should I do if I have a medical emergency?",
         body := "For medical emergencies, call 999 immediately. For urgent but non-emergency care, call 111 or visit your nearest urgent care centre.",
         category := "emergencies",
         tags := ["emergency", "999", "urgent care"] },
       { primary := "How do I get a repeat prescription?",
         body := "You can request a repeat prescription through your GP surgery, local pharmacy, or using the NHS app. Allow 48 hours for processing.",
         category := "prescriptions",
         tags := ["prescription", "repeat", "medication"] },
       { primary := "What are the opening hours for my local pharmacy?",
         body := "Pharmacy opening hours vary. You can find your nearest pharmacy and their opening hours using the NHS website or by calling 111.",
         category := "pharmacies",
         tags := ["pharmacy", "opening hours", "medication"] },
       { primary := "How do I register with a new GP surgery?",
         body := "To register with a new GP surgery, visit the surgery in person with proof of identity and address. You can also register online through some surgeries.",
         category := "registration",
         tags := ["gp", "registration", "new patient"] }],
    guidelines :=
      [{ primary := "NHS Appointments Policy",
         body := "The NHS aims to provide appointments within 48 hours for urgent cases and within 18 weeks for non-urgent referrals. Patients should contact their GP for non-emergency care.",
         category := "appointments",
         tags := ["nhs", "appointments", "policy", "waiting times"] },
       { primary := "Patient Privacy and Confidentiality",
         body := "All patient information is confidential and protected under GDPR and NHS data protection regulations. Information is only shared with consent or when legally required.",
         category := "privacy",
         tags := ["gdpr", "confidentiality", "data protection", "privacy"] },
       { primary := "Emergency Care Guidelines",
         body := "Emergency care is available 24/7 through A&E departments and ambulance services. Call 999 for life-threatening emergencies. Use 111 for urgent advice.",
         category := "emergencies",
         tags := ["emergency", "999", "111", "a&e", "urgent care"] }] }

/-- The haystack text assembled by `_calculate_keyword_score`:
question-or-title, plus content-or-answer, plus the joined tags, all
lower-cased. -/
def recordText (doc : KBRecord) : List Char :=
  pyLower doc.primary.data ++ [' '] ++ pyLower doc.body.data ++ [' ']
    ++ pyLower (String.intercalate " " doc.tags).data

/-- Embeds `_calculate_keyword_score(query, document)`.  Returns
`Except.error ()` on the `ZeroDivisionError` raised when the query
tokenizes to zero tokens while the document text has tokens. -/
def calculate_keyword_score (query : String) (doc : KBRecord) : Except Unit Frac :=
  let text_words := pySplit (recordText doc)
  let query_words := dedupKeep (pySplit query.data)
  if text_words.isEmpty then Except.ok (Frac.ofInt 0)
  else if query_words.isEmpty then Except.error ()
  else
    let overlap := query_words.countP (fun w => text_words.contains w)
    Except.ok (Frac.div (Frac.ofInt overlap) (Frac.ofInt query_words.length))

/-- The loop body of `_search_knowledge_base` over one record list:
score each record, keep it when `score > 0.1`, numbering kept results
from `k` upwards; a scorer exception aborts the whole search. -/
def kbLoop (query : String) (kindStr idStem : String) :
    List KBRecord → Nat → Except Unit (List RResult)
  | [], _ => Except.ok []
  | doc :: rest, k =>
    match calculate_keyword_score query doc with
    | Except.error e => Except.error e
    | Except.ok sc =>
      if Frac.blt (Frac.mk' 1 10) sc then
        match kbLoop query kindStr idStem rest (k + 1) with
        | Except.error e => Except.error e
        | Except.ok tailRes =>
          let entry : RResult :=
            { rid := idStem ++ toString k, score := sc,
              source := "knowledge_base", kind := kindStr, record := some doc }
          Except.ok (entry :: tailRes)
      else kbLoop query kindStr idStem rest k

/-- Embeds `_search_knowledge_base` without its exception handler: FAQ loop then
guideline loop, ids numbered by the running result count. -/
def searchKBGo (kb : KnowledgeBase) (query_lower : String) :
    Except Unit (List RResult) :=
  match kbLoop query_lower "faq" "faq_" kb.faqs 0 with
  | Except.error e => Except.error e
  | Except.ok faqResults =>
    match kbLoop query_lower "guideline" "guideline_" kb.guidelines faqResults.length with
    | Except.error e => Except.error e
    | Except.ok guidelineResults => Except.ok (faqResults ++ guidelineResults)

/-- Python `str.lower` on a `String`. -/
def pyLowerS (s : String) : String := String.mk (pyLower s.data)

/-- Embeds `_search_knowledge_base(query, top_k)`: lower-cases the query, scores
every FAQ and guideline, and maps any exception to the empty list. -/
def search_knowledge_base (kb : KnowledgeBase) (query : String) : List RResult :=
  match searchKBGo kb (pyLowerS query) with
  | Except.ok results => results
  | Except.error _ => []

/-- Stable-descending insertion: the new element goes after every element
with a greater-or-equal score (Python `list.sort(reverse=True)` is
stable). -/
def insertDesc (x : RResult) : List RResult → List RResult
  | [] => [x]
  | y :: ys => if Frac.ble x.score y.score then y :: insertDesc x ys else x :: y :: ys

/-- Embeds `results.sort(key=lambda x: x.get('score', 0), reverse=True)`:
stable sort, descending by score. -/
def sortDesc (l : List RResult) : List RResult :=
  l.foldl (fun acc x => insertDesc x acc) []

/-- The pluggable backends of the RAG engine, as abstract capabilities:
whether a vector database and embedding model were configured, the
embedding call (`none` models an embedding failure), and the backend
similarity search. -/
structure RagConfig where
  hasBackend : Bool
  embed : String → Option (List Frac)
  vectorSearch : List Frac → Nat → List RResult

/-- The vector-search half of `get_relevant_context`. -/
def vectorPart (cfg : RagConfig) (query : String) (top_k : Nat) : List RResult :=
  if cfg.hasBackend then
    match cfg.embed query with
    | none => []
    | some v => cfg.vectorSearch v top_k
  else []

/-- Embeds `get_relevant_context(query, top_k)`: empty when no backend is
configured or the query embedding fails; otherwise vector results plus
keyword results, sorted descending by score and truncated to `top_k`. -/
def get_relevant_context (cfg : RagConfig) (kb : KnowledgeBase)
    (query : String) (top_k : Nat) : List RResult :=
  if cfg.hasBackend then
    match cfg.embed query with
    | none => []
    | some v =>
      let results := cfg.vectorSearch v top_k ++ search_knowledge_base kb query
      (sortDesc results).take top_k
  else []

end RagEngine

/-- Value equality of fractions by cross-multiplication (float equality of
the scores, for positive denominators). -/
def Frac.beqv (a b : Frac) : Bool := a.num * b.den == b.num * a.den

namespace RagEngine

/-! ### Sortedness and stability of the retrieval fusion sort -/
/-- Descending order on result scores, in the comparator the sort uses. -/
def ScoresSortedDesc (l : List RResult) : Prop :=
  l.Pairwise (fun a b => Frac.ble b.score a.score = true)

/-- Score-value filter: all results whose score equals `q`. -/
def scoreFilter (q : Frac) (l : List RResult) : List RResult :=
  l.filter (fun r => Frac.beqv r.score q)

end RagEngine

/-! ### ConversationManager (`core/conversation_manager.py`) -/
/-- Association-list lookup (Python dict access by string key). -/
def alookup {α : Type} (k : String) : List (String × α) → Option α
  | [] => none
  | (k', v) :: rest => if k' = k then some v else alookup k rest

/-- Association-list update of an existing key. -/
def aupdate {α : Type} (k : String) (v : α) : List (String × α) → List (String × α)
  | [] => []
  | (k', v') :: rest => if k' = k then (k', v) :: rest else (k', v') :: aupdate k v rest

/-- Association-list deletion (Python `del d[k]`; keys are unique). -/
def aerase {α : Type} (k : String) : List (String × α) → List (String × α)
  | [] => []
  | (k', v') :: rest => if k' = k then rest else (k', v') :: aerase k rest

namespace ConvManager

/-- The `Message` dataclass (the uuid id is external randomness and
metadata is opaque; neither is read by the core logic). -/
structure MMessage where
  role : String
  content : String
  timestamp : Int
  safety_score : Option Frac
deriving DecidableEq

/-- The `Conversation` dataclass, with the four context keys inlined. -/
structure MConversation where
  session_id : String
  user_id : Option String
  start_time : Int
  last_activity : Int
  messages : List MMessage
  topic : String
  intent : String
  entities : List String
  sentiment : String
  status : String
deriving DecidableEq

/-- One session record of `self.sessions`. -/
structure SessionData where
  conversation_ids : List String
  created_at : Int
  last_activity : Int
deriving DecidableEq

/-- The manager state: the two id-keyed dicts. -/
structure ConvState where
  conversations : List (String × MConversation)
  sessions : List (String × SessionData)
deriving DecidableEq

/-- Embeds `self.max_conversation_length`. -/
def max_conversation_length : Nat := 100

/-- Embeds `self.max_session_duration` (24 hours, in seconds). -/
def max_session_duration : Int := 24 * 3600

/-- Positive sentiment lexicon of `_update_conversation_context`. -/
def positive_words : List String := ["good", "great", "excellent", "happy", "fine"]

/-- Negative sentiment lexicon of `_update_conversation_context`. -/
def negative_words : List String := ["bad", "terrible", "awful", "sad", "pain"]

/-- Embeds `_update_conversation_context`: keyword-driven topic/intent update and
sentiment update, for user messages only. -/
def update_conversation_context (conv : MConversation) (msg : MMessage) :
    MConversation :=
  if msg.role = "user" then
    let content_lower := pyLower msg.content.data
    let conv1 :=
      if ["appointment", "book", "schedule"].any
          (fun w => containsSubS w content_lower) then
        { conv with topic := "appointment_booking", intent := "book_appointment" }
      else if ["symptom", "pain", "ill"].any
          (fun w => containsSubS w content_lower) then
        { conv with topic := "health_inquiry", intent := "health_question" }
      else if ["hello", "hi", "help"].any
          (fun w => containsSubS w content_lower) then
        { conv with topic := "greeting", intent := "greeting" }
      else conv
    if positive_words.any (fun w => containsSubS w content_lower) then
      { conv1 with sentiment := "positive" }
    else if negative_words.any (fun w => containsSubS w content_lower) then
      { conv1 with sentiment := "negative" }
    else conv1
  else conv

/-- Embeds `add_message(conversation_id, role, content, metadata, safety_score)`:
rejected (`false`) for an unknown conversation or one at the length cap;
otherwise appends the message, refreshes activity stamps, and updates the
derived context. -/
def add_message (st : ConvState) (now : Int)
    (conversation_id role content : String) (safety_score : Option Frac) :
    Bool × ConvState :=
  match alookup conversation_id st.conversations with
  | none => (false, st)
  | some conversation =>
    if max_conversation_length ≤ conversation.messages.length then (false, st)
    else
      let message : MMessage :=
        { role := role, content := content, timestamp := now,
          safety_score := safety_score }
      let conv1 := { conversation with
        messages := conversation.messages ++ [message], last_activity := now }
      let conv2 := update_conversation_context conv1 message
      let sessions :=
        match alookup conversation.session_id st.sessions with
        | none => st.sessions
        | some sd =>
          aupdate conversation.session_id { sd with last_activity := now } st.sessions
      (true, { conversations := aupdate conversation_id conv2 st.conversations,
               sessions := sessions })

/-- Embeds `pause_conversation(conversation_id)`: only checks existence. -/
def pause_conversation (st : ConvState) (now : Int) (conversation_id : String) :
    Bool × ConvState :=
  match alookup conversation_id st.conversations with
  | none => (false, st)
  | some conversation =>
    let conv2 := { conversation with status := "paused", last_activity := now }
    (true, { st with conversations := aupdate conversation_id conv2 st.conversations })

/-- Embeds `resume_conversation(conversation_id)`: only checks existence. -/
def resume_conversation (st : ConvState) (now : Int) (conversation_id : String) :
    Bool × ConvState :=
  match alookup conversation_id st.conversations with
  | none => (false, st)
  | some conversation =>
    let conv2 := { conversation with status := "active", last_activity := now }
    (true, { st with conversations := aupdate conversation_id conv2 st.conversations })

/-- Embeds `end_conversation(conversation_id)`: only checks existence. -/
def end_conversation (st : ConvState) (now : Int) (conversation_id : String) :
    Bool × ConvState :=
  match alookup conversation_id st.conversations with
  | none => (false, st)
  | some conversation =>
    let conv2 := { conversation with status := "ended", last_activity := now }
    (true, { st with conversations := aupdate conversation_id conv2 st.conversations })

/-- Embeds `_cleanup_session(session_id)`: delete the session's conversations
(when still present) and the session itself. -/
def cleanup_session (st : ConvState) (session_id : String) : ConvState :=
  match alookup session_id st.sessions with
  | none => st
  | some sd =>
    { conversations := sd.conversation_ids.foldl (fun cs cid => aerase cid cs)
        st.conversations,
      sessions := aerase session_id st.sessions }

/-- Embeds `cleanup_old_conversations()`: collect and delete the expired sessions
(cascading), then collect and delete the expired conversations. -/
def cleanup_old_conversations (st : ConvState) (now : Int) : ConvState :=
  let expired_sessions :=
    (st.sessions.filter
      (fun p => max_session_duration < now - p.2.last_activity)).map Prod.fst
  let st1 := expired_sessions.foldl cleanup_session st
  let expired_conversations :=
    (st1.conversations.filter
      (fun p => max_session_duration < now - p.2.last_activity)).map Prod.fst
  { st1 with conversations :=
      expired_conversations.foldl (fun cs cid => aerase cid cs) st1.conversations }

/-- Embeds `add_message` iterated `n` times (for the length-cap scenario):
returns the list of per-call results and the final state. -/
def add_message_iter (st : ConvState) (now : Int)
    (conversation_id role content : String) (safety_score : Option Frac) :
    Nat → List Bool × ConvState
  | 0 => ([], st)
  | n + 1 =>
    let r1 := add_message st now conversation_id role content safety_score
    let r2 := add_message_iter r1.2 now conversation_id role content safety_score n
    (r1.1 :: r2.1, r2.2)

end ConvManager

/-- A freshly created conversation (the shape `create_conversation`
builds), used as a concrete test fixture. -/
def sample_conversation : ConvManager.MConversation :=
  { session_id := "s1", user_id := none, start_time := 0, last_activity := 0,
    messages := [], topic := "general", intent := "greeting", entities := [],
    sentiment := "neutral", status := "active" }

/-- The session record of the fixture state. -/
def sample_session : ConvManager.SessionData :=
  { conversation_ids := ["c1"], created_at := 0, last_activity := 0 }

/-- A manager state holding one session with one active conversation. -/
def sample_state : ConvManager.ConvState :=
  { conversations := [("c1", sample_conversation)],
    sessions := [("s1", sample_session)] }

namespace ConvManager

/-- Well-formedness: both dicts have unique keys. -/
def WF (st : ConvState) : Prop :=
  (st.conversations.map Prod.fst).Nodup ∧ (st.sessions.map Prod.fst).Nodup

end ConvManager

/-- Session fixture: last activity 25 hours before the sweep time. -/
def old_session : ConvManager.SessionData :=
  { conversation_ids := ["c1", "c2"], created_at := 0, last_activity := 0 }

/-- Session fixture: last activity 1 hour before the sweep time. -/
def fresh_session : ConvManager.SessionData :=
  { conversation_ids := ["c3"], created_at := 86400, last_activity := 86400 }

/-- A conversation fixture bound to a session with a given activity time. -/
def conv_of (sid : String) (la : Int) : ConvManager.MConversation :=
  { sample_conversation with session_id := sid, last_activity := la }

/-- A state with one 25-hour-old session (two conversations) and one
1-hour-old session, swept at `now = 90000` seconds. -/
def cleanup_state : ConvManager.ConvState :=
  { conversations := [("c1", conv_of "old" 0), ("c2", conv_of "old" 0),
      ("c3", conv_of "fresh" 86400)],
    sessions := [("old", old_session), ("fresh", fresh_session)] }

/-! ### HealthcareChatbot (`core/chatbot.py`) -/
/-- Association-list insert-or-update (Python `d[k] = v`). -/
def aset {α : Type} (k : String) (v : α) : List (String × α) → List (String × α)
  | [] => [(k, v)]
  | (k', v') :: rest => if k' = k then (k', v) :: rest else (k', v') :: aset k v rest

namespace Chatbot

/-- One entry of the chatbot's own per-session history. -/
structure BotMessage where
  role : String
  content : String
  timestamp : Int
deriving DecidableEq

/-- The chatbot's `self.conversations` dict. -/
structure BotState where
  conversations : List (String × List BotMessage)
deriving DecidableEq

/-- External collaborators of `process_message`: whether an LLM client was
constructed, the LLM call itself, and the GDPR at-rest encryption. -/
structure BotConfig where
  hasLLM : Bool
  generate : String → String
  gdprCompliance : Bool
  encrypt : String → String

/-- Embeds `self.safety_threshold = 0.8`. -/
def safety_threshold : Frac := Frac.mk' 8 10

/-- Embeds `self.max_conversation_length = 50` (the chatbot wrapper's own cap). -/
def max_conversation_length : Nat := 50

/-- Embeds `_get_safety_response()`. -/
def safety_response : String :=
  "I apologize, but I cannot provide that information. For medical concerns, please consult with a healthcare professional. I\x27m here to help with administrative tasks like appointment booking."

/-- Embeds `_generate_fallback_response(user_message)`. -/
def generate_fallback_response (user_message : String) : String :=
  let ml := pyLower user_message.data
  if ["appointment", "book", "schedule"].any (fun w => containsSubS w ml) then
    "I can help you with appointment booking. Please provide your preferred date and time, and I\x27ll check availability. For medical concerns, please consult with your healthcare provider."
  else if ["symptom", "pain", "ill", "sick"].any (fun w => containsSubS w ml) then
    "I understand you\x27re experiencing health concerns. For medical symptoms and diagnosis, please consult with a healthcare professional. I can help with administrative tasks like appointment booking."
  else if ["hello", "hi", "help"].any (fun w => containsSubS w ml) then
    "Hello! I\x27m EMMA, your healthcare assistant. I can help with appointment booking, general health information, and administrative questions. How can I assist you today?"
  else
    "Thank you for your message. I\x27m here to help with healthcare administrative tasks. For medical concerns, please consult with a healthcare professional. How can I assist you?"

/-- Embeds `_add_to_conversation(session_id, role, content)`: initialise the
session history if absent, retain-and-trim to the last 25 entries at the
50-entry cap, then append (encrypting at rest when GDPR mode is on). -/
def add_to_conversation (cfg : BotConfig) (st : BotState) (now : Int)
    (session_id role content : String) : BotState :=
  let msgs := match alookup session_id st.conversations with
    | none => []
    | some m => m
  let msgs := if max_conversation_length ≤ msgs.length then
    msgs.drop (msgs.length - max_conversation_length / 2) else msgs
  let content' := if cfg.gdprCompliance then cfg.encrypt content else content
  let msgs := msgs ++ [{ role := role, content := content', timestamp := now }]
  { conversations := aset session_id msgs st.conversations }

/-- Embeds `process_message(user_message, session_id)`: safety-gate the input
(replacing a sub-threshold turn with the canned safety response before
anything is recorded or generated), record the user message, generate via
the LLM or the rule-based fallback, safety-gate the response, and record
the response. -/
def process_message (cfg : BotConfig) (st : BotState) (now : Int)
    (user_message session_id : String) : String × BotState :=
  let safety_score := SafetyChecker.check_message_safety (some user_message)
  if Frac.blt safety_score safety_threshold then (safety_response, st)
  else
    let st1 := add_to_conversation cfg st now session_id "user" user_message
    let response := if cfg.hasLLM then cfg.generate user_message
      else generate_fallback_response user_message
    let response_safety := SafetyChecker.check_message_safety (some response)
    let response := if Frac.blt response_safety safety_threshold then safety_response
      else response
    let st2 := add_to_conversation cfg st1 now session_id "assistant" response
    (response, st2)

end Chatbot

/-! ### Theorems -/

theorem Frac.blt_iff {a b : Frac} (ha : a.Pos) (hb : b.Pos) :
    Frac.blt a b = true ↔ a.toRat < b.toRat := by
  unfold Frac.blt Frac.toRat
  rw [div_lt_div_iff₀ (by exact_mod_cast ha) (by exact_mod_cast hb)]
  rw [decide_eq_true_eq]
  constructor
  · intro h
    exact_mod_cast h
  · intro h
    exact_mod_cast h

theorem Frac.ble_iff {a b : Frac} (ha : a.Pos) (hb : b.Pos) :
    Frac.ble a b = true ↔ a.toRat ≤ b.toRat := by
  unfold Frac.ble Frac.toRat
  rw [div_le_div_iff₀ (by exact_mod_cast ha) (by exact_mod_cast hb)]
  rw [decide_eq_true_eq]
  constructor
  · intro h
    exact_mod_cast h
  · intro h
    exact_mod_cast h

theorem Frac.toRat_mul (a b : Frac) :
    (Frac.mul a b).toRat = a.toRat * b.toRat := by
  unfold Frac.mul Frac.toRat
  push_cast
  rw [div_mul_div_comm]

theorem Frac.toRat_add {a b : Frac} (ha : a.Pos) (hb : b.Pos) :
    (Frac.add a b).toRat = a.toRat + b.toRat := by
  unfold Frac.add Frac.toRat
  rw [div_add_div _ _ (by exact_mod_cast ha.ne' : (a.den : ℚ) ≠ 0)
      (by exact_mod_cast hb.ne' : (b.den : ℚ) ≠ 0)]
  push_cast
  ring_nf

theorem Frac.toRat_sub {a b : Frac} (ha : a.Pos) (hb : b.Pos) :
    (Frac.sub a b).toRat = a.toRat - b.toRat := by
  unfold Frac.sub Frac.toRat
  rw [div_sub_div _ _ (by exact_mod_cast ha.ne' : (a.den : ℚ) ≠ 0)
      (by exact_mod_cast hb.ne' : (b.den : ℚ) ≠ 0)]
  push_cast
  ring_nf

theorem Frac.pos_mul {a b : Frac} (ha : a.Pos) (hb : b.Pos) :
    (Frac.mul a b).Pos := mul_pos ha hb

theorem Frac.pos_add {a b : Frac} (ha : a.Pos) (hb : b.Pos) :
    (Frac.add a b).Pos := mul_pos ha hb

theorem Frac.pos_sub {a b : Frac} (ha : a.Pos) (hb : b.Pos) :
    (Frac.sub a b).Pos := mul_pos ha hb

theorem Frac.pos_ofInt (n : Int) : (Frac.ofInt n).Pos := one_pos

theorem Frac.toRat_ofInt (n : Int) : (Frac.ofInt n).toRat = (n : ℚ) := by
  unfold Frac.ofInt Frac.toRat
  norm_num

/-! ### Bounds for the safety scorer -/
theorem Frac.toRat_mk' (a b : Int) : (Frac.mk' a b).toRat = (a : ℚ) / (b : ℚ) := rfl

theorem Frac.toRat_zero : (Frac.ofInt 0).toRat = 0 := by
  rw [Frac.toRat_ofInt]
  norm_num

theorem Frac.toRat_one : (Frac.ofInt 1).toRat = 1 := by
  rw [Frac.toRat_ofInt]
  norm_num

/-- The per-pattern halving fold keeps the multiplier positive-denominator
and nonnegative. -/
theorem halving_fold_bounds (pats : List (List PatTok)) (m : List Char)
    (cs : Frac) (hp : cs.Pos) (hn : 0 ≤ cs.toRat) :
    (pats.foldl
      (fun cs pat => if reSearch pat m then Frac.mul cs (Frac.mk' 1 2) else cs) cs).Pos
    ∧ 0 ≤ (pats.foldl
      (fun cs pat => if reSearch pat m then Frac.mul cs (Frac.mk' 1 2) else cs) cs).toRat := by
  induction pats generalizing cs with
  | nil => exact ⟨hp, hn⟩
  | cons p ps ih =>
    simp only [List.foldl_cons]
    by_cases h : reSearch p m
    · simp only [h, if_true]
      refine ih _ (Frac.pos_mul hp (by decide)) ?_
      rw [Frac.toRat_mul, Frac.toRat_mk']
      positivity
    · simp only [h, if_false]
      exact ih _ hp hn

/-- Fact about `_analyze_context` returns a positive-denominator, nonnegative
multiplier. -/
theorem analyze_context_bounds (m : List Char) (ks : List String) :
    (SafetyChecker.analyze_context m ks).Pos
    ∧ 0 ≤ (SafetyChecker.analyze_context m ks).toRat := by
  unfold SafetyChecker.analyze_context
  have h := halving_fold_bounds SafetyChecker.safe_patterns m (Frac.ofInt 1)
    (Frac.pos_ofInt 1) (by rw [Frac.toRat_one]; norm_num)
  by_cases hc : (SafetyChecker.medical_terms.any fun t => containsSubS t (pyLower m))
      && SafetyChecker.high_risk_medical.any fun k => ks.contains k
  · simp only [hc, if_true]
    refine ⟨Frac.pos_mul h.1 (by decide), ?_⟩
    rw [Frac.toRat_mul, Frac.toRat_mk']
    have := h.2
    positivity
  · simp only [hc, if_false]
    exact h

/-- Fact about `_calculate_risk_score` returns a positive-denominator value in `[0, 1]`. -/
theorem calculate_risk_score_bounds (m : List Char) (lvl : String) :
    (SafetyChecker.calculate_risk_score m lvl).Pos
    ∧ 0 ≤ (SafetyChecker.calculate_risk_score m lvl).toRat
    ∧ (SafetyChecker.calculate_risk_score m lvl).toRat ≤ 1 := by
  unfold SafetyChecker.calculate_risk_score
  cases hl : SafetyChecker.risk_keywords.lookup lvl with
  | none => exact ⟨Frac.pos_ofInt 0, by rw [Frac.toRat_zero],
      by rw [Frac.toRat_zero]; norm_num⟩
  | some keywords =>
    simp only []
    by_cases he : (keywords.filter (fun k => containsSubS k m)).isEmpty
    · simp only [he, if_true]
      exact ⟨Frac.pos_ofInt 1, by rw [Frac.toRat_one]; norm_num,
        by rw [Frac.toRat_one]⟩
    · simp only [he, Bool.false_eq_true, if_false]
      have hklen : 0 < keywords.length := by
        rcases keywords with _ | ⟨k, ks⟩
        · exact absurd rfl he
        · simp
      set found := keywords.filter (fun k => containsSubS k m) with hfound
      have hctx := analyze_context_bounds m found
      set ctx := SafetyChecker.analyze_context m found
      have hbase : (Frac.div (Frac.ofInt found.length) (Frac.ofInt keywords.length)).Pos
          ∧ 0 ≤ (Frac.div (Frac.ofInt found.length) (Frac.ofInt keywords.length)).toRat := by
        unfold Frac.div Frac.ofInt
        have hnotneg : ¬ ((keywords.length : Int) < 0) := by omega
        simp only [hnotneg, if_false]
        constructor
        · show (0 : Int) < 1 * (keywords.length : Int)
          omega
        · unfold Frac.toRat
          push_cast
          positivity
      set base := Frac.div (Frac.ofInt found.length) (Frac.ofInt keywords.length)
      have hadjp : (Frac.mul base ctx).Pos := Frac.pos_mul hbase.1 hctx.1
      have hadjn : 0 ≤ (Frac.mul base ctx).toRat := by
        rw [Frac.toRat_mul]
        exact mul_nonneg hbase.2 hctx.2
      set adjusted := Frac.mul base ctx
      have hsubp : (Frac.sub (Frac.ofInt 1) adjusted).Pos :=
        Frac.pos_sub (Frac.pos_ofInt 1) hadjp
      have hsuble : (Frac.sub (Frac.ofInt 1) adjusted).toRat ≤ 1 := by
        rw [Frac.toRat_sub (Frac.pos_ofInt 1) hadjp, Frac.toRat_one]
        linarith
      unfold Frac.fmax
      cases hcmp : Frac.blt (Frac.ofInt 0) (Frac.sub (Frac.ofInt 1) adjusted) with
      | true =>
        simp only [hcmp, if_true]
        refine ⟨hsubp, ?_, hsuble⟩
        have h0 := (Frac.blt_iff (Frac.pos_ofInt 0) hsubp).mp hcmp
        rw [Frac.toRat_zero] at h0
        linarith
      | false =>
        simp only [hcmp, Bool.false_eq_true, if_false]
        exact ⟨Frac.pos_ofInt 0, by rw [Frac.toRat_zero],
          by rw [Frac.toRat_zero]; norm_num⟩

/-- Fact about `_check_compliance` returns a positive-denominator value in `[0, 1]`. -/
theorem check_compliance_bounds (m : List Char) :
    (SafetyChecker.check_compliance m).Pos
    ∧ 0 ≤ (SafetyChecker.check_compliance m).toRat
    ∧ (SafetyChecker.check_compliance m).toRat ≤ 1 := by
  have step : ∀ (s : Frac) (a b : Int), s.Pos → 0 ≤ s.toRat → s.toRat ≤ 1 →
      0 ≤ a → a ≤ b → 0 < b →
      (Frac.mul s (Frac.mk' a b)).Pos ∧ 0 ≤ (Frac.mul s (Frac.mk' a b)).toRat
        ∧ (Frac.mul s (Frac.mk' a b)).toRat ≤ 1 := by
    intro s a b hp h0 h1 ha hab hb
    have hcp : (Frac.mk' a b).Pos := hb
    have hc0 : 0 ≤ (Frac.mk' a b).toRat := by
      rw [Frac.toRat_mk']
      have hb0 : (0 : ℚ) < (b : ℚ) := by exact_mod_cast hb
      have ha0 : (0 : ℚ) ≤ (a : ℚ) := by exact_mod_cast ha
      positivity
    have hc1 : (Frac.mk' a b).toRat ≤ 1 := by
      rw [Frac.toRat_mk']
      have hb0 : (0 : ℚ) < (b : ℚ) := by exact_mod_cast hb
      rw [div_le_one hb0]
      exact_mod_cast hab
    refine ⟨Frac.pos_mul hp hcp, ?_, ?_⟩
    · rw [Frac.toRat_mul]
      exact mul_nonneg h0 hc0
    · rw [Frac.toRat_mul]
      exact mul_le_one₀ h1 hc0 hc1
  have base : (Frac.ofInt 1).Pos ∧ 0 ≤ (Frac.ofInt 1).toRat ∧ (Frac.ofInt 1).toRat ≤ 1 :=
    ⟨Frac.pos_ofInt 1, by rw [Frac.toRat_one]; norm_num, by rw [Frac.toRat_one]⟩
  unfold SafetyChecker.check_compliance
  by_cases h1 : SafetyChecker.gdpr_keywords.any (fun k => containsSubS k m)
  · by_cases h2 : SafetyChecker.nhs_keywords.any (fun k => containsSubS k m)
    · by_cases h3 : SafetyChecker.hipaa_keywords.any (fun k => containsSubS k m)
      · simp only [h1, h2, h3, if_true]
        have s1 := step (Frac.ofInt 1) 8 10 base.1 base.2.1 base.2.2
          (by norm_num) (by norm_num) (by norm_num)
        have s2 := step ((Frac.ofInt 1).mul (Frac.mk' 8 10)) 9 10 s1.1 s1.2.1 s1.2.2
          (by norm_num) (by norm_num) (by norm_num)
        exact step (((Frac.ofInt 1).mul (Frac.mk' 8 10)).mul (Frac.mk' 9 10)) 85 100
          s2.1 s2.2.1 s2.2.2 (by norm_num) (by norm_num) (by norm_num)
      · simp only [h1, h2, h3, Bool.false_eq_true, if_true, if_false]
        have s1 := step (Frac.ofInt 1) 8 10 base.1 base.2.1 base.2.2
          (by norm_num) (by norm_num) (by norm_num)
        exact step ((Frac.ofInt 1).mul (Frac.mk' 8 10)) 9 10 s1.1 s1.2.1 s1.2.2
          (by norm_num) (by norm_num) (by norm_num)
    · by_cases h3 : SafetyChecker.hipaa_keywords.any (fun k => containsSubS k m)
      · simp only [h1, h2, h3, Bool.false_eq_true, if_true, if_false]
        have s1 := step (Frac.ofInt 1) 8 10 base.1 base.2.1 base.2.2
          (by norm_num) (by norm_num) (by norm_num)
        exact step ((Frac.ofInt 1).mul (Frac.mk' 8 10)) 85 100 s1.1 s1.2.1 s1.2.2
          (by norm_num) (by norm_num) (by norm_num)
      · simp only [h1, h2, h3, Bool.false_eq_true, if_true, if_false]
        exact step (Frac.ofInt 1) 8 10 base.1 base.2.1 base.2.2
          (by norm_num) (by norm_num) (by norm_num)
  · by_cases h2 : SafetyChecker.nhs_keywords.any (fun k => containsSubS k m)
    · by_cases h3 : SafetyChecker.hipaa_keywords.any (fun k => containsSubS k m)
      · simp only [h1, h2, h3, Bool.false_eq_true, if_true, if_false]
        have s1 := step (Frac.ofInt 1) 9 10 base.1 base.2.1 base.2.2
          (by norm_num) (by norm_num) (by norm_num)
        exact step ((Frac.ofInt 1).mul (Frac.mk' 9 10)) 85 100 s1.1 s1.2.1 s1.2.2
          (by norm_num) (by norm_num) (by norm_num)
      · simp only [h1, h2, h3, Bool.false_eq_true, if_true, if_false]
        exact step (Frac.ofInt 1) 9 10 base.1 base.2.1 base.2.2
          (by norm_num) (by norm_num) (by norm_num)
    · by_cases h3 : SafetyChecker.hipaa_keywords.any (fun k => containsSubS k m)
      · simp only [h1, h2, h3, Bool.false_eq_true, if_true, if_false]
        exact step (Frac.ofInt 1) 85 100 base.1 base.2.1 base.2.2
          (by norm_num) (by norm_num) (by norm_num)
      · simp only [h1, h2, h3, Bool.false_eq_true, if_true, if_false]
        exact base

/-- Fact about `_calculate_overall_safety` maps three `[0, 1]` scores to a `[0, 1]`
score (weights 0.6 + 0.3 + 0.1 = 1). -/
theorem calculate_overall_safety_bounds (h m l : Frac)
    (hh : h.Pos ∧ 0 ≤ h.toRat ∧ h.toRat ≤ 1)
    (hm : m.Pos ∧ 0 ≤ m.toRat ∧ m.toRat ≤ 1)
    (hl : l.Pos ∧ 0 ≤ l.toRat ∧ l.toRat ≤ 1) :
    (SafetyChecker.calculate_overall_safety h m l).Pos
    ∧ 0 ≤ (SafetyChecker.calculate_overall_safety h m l).toRat
    ∧ (SafetyChecker.calculate_overall_safety h m l).toRat ≤ 1 := by
  unfold SafetyChecker.calculate_overall_safety
  have p6 : (Frac.mk' 6 10).Pos := by decide
  have p3 : (Frac.mk' 3 10).Pos := by decide
  have p1 : (Frac.mk' 1 10).Pos := by decide
  have ph := Frac.pos_mul hh.1 p6
  have pm := Frac.pos_mul hm.1 p3
  have pl := Frac.pos_mul hl.1 p1
  refine ⟨Frac.pos_add (Frac.pos_add ph pm) pl, ?_, ?_⟩
  all_goals
    rw [Frac.toRat_add (Frac.pos_add ph pm) pl, Frac.toRat_add ph pm,
      Frac.toRat_mul, Frac.toRat_mul, Frac.toRat_mul, Frac.toRat_mk',
      Frac.toRat_mk', Frac.toRat_mk']
  · have := hh.2.1
    have := hm.2.1
    have := hl.2.1
    have h6 : ((6 : Int) : ℚ) / ((10 : Int) : ℚ) = 6 / 10 := by norm_num
    have h3 : ((3 : Int) : ℚ) / ((10 : Int) : ℚ) = 3 / 10 := by norm_num
    have h1 : ((1 : Int) : ℚ) / ((10 : Int) : ℚ) = 1 / 10 := by norm_num
    rw [h6, h3, h1]
    positivity
  · have h6 : ((6 : Int) : ℚ) / ((10 : Int) : ℚ) = 6 / 10 := by norm_num
    have h3 : ((3 : Int) : ℚ) / ((10 : Int) : ℚ) = 3 / 10 := by norm_num
    have h1 : ((1 : Int) : ℚ) / ((10 : Int) : ℚ) = 1 / 10 := by norm_num
    rw [h6, h3, h1]
    nlinarith [hh.2.1, hh.2.2, hm.2.1, hm.2.2, hl.2.1, hl.2.2]

/-- C5: `check_message_safety` always lands in `[0, 1]`; the empty string
and non-string inputs score exactly 0; the embedding is a total function
(no exception can escape). -/
theorem claim_C5_score_range_and_fail_closed :
    (∀ t : Option String,
      0 ≤ (SafetyChecker.check_message_safety t).toRat
      ∧ (SafetyChecker.check_message_safety t).toRat ≤ 1)
    ∧ (SafetyChecker.check_message_safety (some "")).toRat = 0
    ∧ (SafetyChecker.check_message_safety none).toRat = 0 := by
  refine ⟨?_, by rw [show SafetyChecker.check_message_safety (some "") = Frac.ofInt 0
      from rfl, Frac.toRat_zero], by rw [show SafetyChecker.check_message_safety none
      = Frac.ofInt 0 from rfl, Frac.toRat_zero]⟩
  intro t
  cases t with
  | none =>
    rw [show SafetyChecker.check_message_safety none = Frac.ofInt 0 from rfl,
      Frac.toRat_zero]
    norm_num
  | some m =>
    unfold SafetyChecker.check_message_safety
    by_cases he : m = ""
    · simp only [he, if_true]
      rw [Frac.toRat_zero]
      norm_num
    · simp only [he, if_false]
      have hh := calculate_risk_score_bounds (pyLower m.data) "high_risk"
      have hm := calculate_risk_score_bounds (pyLower m.data) "medium_risk"
      have hl := calculate_risk_score_bounds (pyLower m.data) "low_risk"
      have hov := calculate_overall_safety_bounds _ _ _ hh hm hl
      have hcp := check_compliance_bounds (pyLower m.data)
      unfold Frac.fmin
      cases hc : Frac.blt (SafetyChecker.check_compliance (pyLower m.data))
          (SafetyChecker.calculate_overall_safety
            (SafetyChecker.calculate_risk_score (pyLower m.data) "high_risk")
            (SafetyChecker.calculate_risk_score (pyLower m.data) "medium_risk")
            (SafetyChecker.calculate_risk_score (pyLower m.data) "low_risk")) with
      | true =>
        simp only [hc, if_true]
        exact ⟨hcp.2.1, hcp.2.2⟩
      | false =>
        simp only [hc, Bool.false_eq_true, if_false]
        exact ⟨hov.2.1, hov.2.2⟩

/-- C6: the negation safe-pattern makes "I will not diagnose your
condition" score strictly higher than "I will diagnose your condition". -/
theorem claim_C6_negation_scores_higher :
    (SafetyChecker.check_message_safety (some "I will diagnose your condition")).toRat
    < (SafetyChecker.check_message_safety
        (some "I will not diagnose your condition")).toRat := by
  exact (Frac.blt_iff (by decide) (by decide)).mp (by decide)

theorem Frac.beqv_iff {a b : Frac} (ha : a.Pos) (hb : b.Pos) :
    Frac.beqv a b = true ↔ a.toRat = b.toRat := by
  unfold Frac.beqv Frac.toRat
  rw [div_eq_div_iff (by exact_mod_cast ha.ne' : (a.den : ℚ) ≠ 0)
    (by exact_mod_cast hb.ne' : (b.den : ℚ) ≠ 0), beq_iff_eq]
  constructor
  · intro h
    exact_mod_cast h
  · intro h
    exact_mod_cast h

/-- Negated `ble` flips to a strict `blt`. -/
theorem Frac.blt_of_not_ble {a b : Frac} (h : ¬ Frac.ble a b = true) :
    Frac.blt b a = true := by
  unfold Frac.ble at h
  unfold Frac.blt
  simp only [decide_eq_true_eq] at h ⊢
  omega

namespace RagEngine

theorem mem_insertDesc {x z : RResult} {l : List RResult} :
    z ∈ insertDesc x l ↔ z = x ∨ z ∈ l := by
  induction l with
  | nil => simp [insertDesc]
  | cons y ys ih =>
    unfold insertDesc
    by_cases h : Frac.ble x.score y.score
    · simp only [h, if_true, List.mem_cons, ih]
      tauto
    · simp only [h, Bool.false_eq_true, if_false, List.mem_cons]

/-- Transitivity of `ble` on scores with positive denominators. -/
theorem ble_trans {a b c : Frac} (ha : a.Pos) (hb : b.Pos) (hc : c.Pos)
    (h1 : Frac.ble a b = true) (h2 : Frac.ble b c = true) :
    Frac.ble a c = true := by
  rw [Frac.ble_iff ha hb] at h1
  rw [Frac.ble_iff hb hc] at h2
  rw [Frac.ble_iff ha hc]
  linarith

theorem insertDesc_sorted {x : RResult} {l : List RResult}
    (hx : x.score.Pos) (hl : ∀ z ∈ l, z.score.Pos) (hs : ScoresSortedDesc l) :
    ScoresSortedDesc (insertDesc x l) := by
  induction l with
  | nil => simp [insertDesc, ScoresSortedDesc]
  | cons y ys ih =>
    have hy : y.score.Pos := hl y (by simp)
    have hys : ∀ z ∈ ys, z.score.Pos := fun z hz => hl z (by simp [hz])
    rw [ScoresSortedDesc, List.pairwise_cons] at hs
    unfold insertDesc
    by_cases h : Frac.ble x.score y.score
    · simp only [h, if_true]
      rw [ScoresSortedDesc, List.pairwise_cons]
      constructor
      · intro z hz
        rcases mem_insertDesc.mp hz with rfl | hz'
        · exact h
        · exact hs.1 z hz'
      · exact ih hys hs.2
    · simp only [h, Bool.false_eq_true, if_false]
      have hyx : Frac.blt y.score x.score = true := Frac.blt_of_not_ble h
      have hyxle : Frac.ble y.score x.score = true := by
        unfold Frac.blt at hyx
        unfold Frac.ble
        simp only [decide_eq_true_eq] at hyx ⊢
        omega
      rw [ScoresSortedDesc, List.pairwise_cons]
      refine ⟨?_, ?_⟩
      · intro z hz
        rcases List.mem_cons.mp hz with rfl | hz'
        · exact hyxle
        · exact ble_trans (hys z hz') hy hx (hs.1 z hz') hyxle
      · rw [List.pairwise_cons]
        exact ⟨hs.1, hs.2⟩

/-- Stable insertion: inserting into a sorted list appends the new element
to the back of its score-equivalence class. -/
theorem insertDesc_scoreFilter {x : RResult} {l : List RResult} {q : Frac}
    (hq : q.Pos) (hx : x.score.Pos) (hl : ∀ z ∈ l, z.score.Pos)
    (hs : ScoresSortedDesc l) :
    scoreFilter q (insertDesc x l)
      = scoreFilter q l ++ (if Frac.beqv x.score q then [x] else []) := by
  induction l with
  | nil =>
    unfold insertDesc scoreFilter
    by_cases h : Frac.beqv x.score q
    · simp [h]
    · simp [h]
  | cons y ys ih =>
    have hy : y.score.Pos := hl y (by simp)
    have hys : ∀ z ∈ ys, z.score.Pos := fun z hz => hl z (by simp [hz])
    rw [ScoresSortedDesc, List.pairwise_cons] at hs
    unfold insertDesc
    by_cases h : Frac.ble x.score y.score
    · simp only [h, if_true]
      unfold scoreFilter at ih ⊢
      by_cases hpy : Frac.beqv y.score q
      · simp only [List.filter_cons, hpy, if_true]
        rw [ih hys hs.2]
        simp
      · simp only [List.filter_cons, hpy]
        rw [ih hys hs.2]
        simp
    · simp only [h, Bool.false_eq_true, if_false]
      have hyx : Frac.blt y.score x.score = true := Frac.blt_of_not_ble h
      by_cases hpx : Frac.beqv x.score q
      · have hxq : x.score.toRat = q.toRat := (Frac.beqv_iff hx hq).mp hpx
        have hyltx : y.score.toRat < x.score.toRat := (Frac.blt_iff hy hx).mp hyx
        have hflt : scoreFilter q (y :: ys) = [] := by
          unfold scoreFilter
          rw [List.filter_eq_nil_iff]
          intro z hz
          have hzpos : z.score.Pos := hl z hz
          have hzle : z.score.toRat ≤ y.score.toRat := by
            rcases List.mem_cons.mp hz with rfl | hz'
            · exact le_refl _
            · exact (Frac.ble_iff hzpos hy).mp (hs.1 z hz')
          intro hcontra
          have : z.score.toRat = q.toRat := (Frac.beqv_iff hzpos hq).mp hcontra
          linarith
        unfold scoreFilter at hflt ⊢
        simp only [List.filter_cons, hpx, if_true, hflt]
        simp
      · unfold scoreFilter
        simp [List.filter_cons, hpx]

/-- Properties of the sorting fold: positivity of scores is preserved, the
accumulator stays sorted, and each score-equivalence class of the output is
the class of the accumulator followed by the class of the input, in input
order (stability). -/
theorem sortFold_props (l : List RResult) (acc : List RResult)
    (hacc : ∀ z ∈ acc, z.score.Pos) (hs : ScoresSortedDesc acc)
    (hl : ∀ z ∈ l, z.score.Pos) :
    (∀ z ∈ l.foldl (fun acc x => insertDesc x acc) acc, z.score.Pos)
    ∧ ScoresSortedDesc (l.foldl (fun acc x => insertDesc x acc) acc)
    ∧ ∀ q : Frac, q.Pos →
        scoreFilter q (l.foldl (fun acc x => insertDesc x acc) acc)
          = scoreFilter q acc ++ scoreFilter q l := by
  induction l generalizing acc with
  | nil =>
    refine ⟨hacc, hs, ?_⟩
    intro q _
    simp [scoreFilter]
  | cons x xs ih =>
    have hx : x.score.Pos := hl x (by simp)
    have hxs : ∀ z ∈ xs, z.score.Pos := fun z hz => hl z (by simp [hz])
    have hacc' : ∀ z ∈ insertDesc x acc, z.score.Pos := by
      intro z hz
      rcases mem_insertDesc.mp hz with rfl | hz'
      · exact hx
      · exact hacc z hz'
    have hs' : ScoresSortedDesc (insertDesc x acc) := insertDesc_sorted hx hacc hs
    have ihx := ih (insertDesc x acc) hacc' hs' hxs
    refine ⟨ihx.1, ihx.2.1, ?_⟩
    intro q hq
    rw [List.foldl_cons, ihx.2.2 q hq, insertDesc_scoreFilter hq hx hacc hs]
    unfold scoreFilter
    by_cases hpx : Frac.beqv x.score q
    · simp [hpx, List.filter_cons]
    · simp [hpx, List.filter_cons]

/-- Fact about `sortDesc` output: positive scores, sorted descending, stable. -/
theorem sortDesc_props (l : List RResult) (hl : ∀ z ∈ l, z.score.Pos) :
    (∀ z ∈ sortDesc l, z.score.Pos)
    ∧ ScoresSortedDesc (sortDesc l)
    ∧ ∀ q : Frac, q.Pos → scoreFilter q (sortDesc l) = scoreFilter q l := by
  unfold sortDesc
  have h := sortFold_props l [] (by simp) (by simp [ScoresSortedDesc]) hl
  refine ⟨h.1, h.2.1, ?_⟩
  intro q hq
  rw [h.2.2 q hq]
  simp [scoreFilter]

/-- A filtered prefix of a list is a prefix of the filtered list. -/
theorem filter_take_leading {α : Type} (p : α → Bool) :
    ∀ (n : Nat) (l : List α), (l.take n).filter p <+: l.filter p := by
  intro n l
  induction l generalizing n with
  | nil => simp
  | cons x xs ih =>
    cases n with
    | zero => simp
    | succ m =>
      rw [List.take_succ_cons, List.filter_cons, List.filter_cons]
      by_cases hp : p x
      · simp only [hp, if_true]
        obtain ⟨t, ht⟩ := ih m
        exact ⟨t, by rw [List.cons_append, ht]⟩
      · simp only [hp, Bool.false_eq_true, if_false]
        exact ih m

/-- A score produced by `_calculate_keyword_score` has a positive
denominator. -/
theorem calculate_keyword_score_pos {q : String} {doc : KBRecord} {sc : Frac}
    (h : calculate_keyword_score q doc = Except.ok sc) : sc.Pos := by
  unfold calculate_keyword_score at h
  by_cases h1 : (pySplit (recordText doc)).isEmpty
  · simp only [h1, if_true, Except.ok.injEq] at h
    exact h ▸ Frac.pos_ofInt 0
  · simp only [h1, Bool.false_eq_true, if_false] at h
    by_cases h2 : (dedupKeep (pySplit q.data)).isEmpty
    · simp only [h2, if_true] at h
      exact absurd h (by simp)
    · simp only [h2, Bool.false_eq_true, if_false, Except.ok.injEq] at h
      have hlen : 0 < (dedupKeep (pySplit q.data)).length := by
        rcases hd : dedupKeep (pySplit q.data) with _ | ⟨w, ws⟩
        · rw [hd] at h2
          exact absurd rfl h2
        · simp
      rw [← h]
      unfold Frac.div Frac.ofInt
      have hnneg : ¬ (((dedupKeep (pySplit q.data)).length : Int) < 0) := by omega
      simp only [hnneg, if_false]
      show (0 : Int) < 1 * ((dedupKeep (pySplit q.data)).length : Int)
      omega

/-- All scores in a `kbLoop` result have positive denominators. -/
theorem kbLoop_pos {q kindStr idStem : String} :
    ∀ (docs : List KBRecord) (k : Nat) (res : List RResult),
      kbLoop q kindStr idStem docs k = Except.ok res →
      ∀ r ∈ res, r.score.Pos := by
  intro docs
  induction docs with
  | nil =>
    intro k res h r hr
    unfold kbLoop at h
    simp only [Except.ok.injEq] at h
    rw [← h] at hr
    exact absurd hr (List.not_mem_nil r)
  | cons doc rest ih =>
    intro k res h r hr
    unfold kbLoop at h
    cases hsc : calculate_keyword_score q doc with
    | error e => rw [hsc] at h; exact absurd h (by simp)
    | ok sc =>
      rw [hsc] at h
      by_cases hgt : Frac.blt (Frac.mk' 1 10) sc
      · simp only [hgt, if_true] at h
        cases htail : kbLoop q kindStr idStem rest (k + 1) with
        | error e => rw [htail] at h; exact absurd h (by simp)
        | ok tailRes =>
          rw [htail] at h
          simp only [Except.ok.injEq] at h
          rw [← h] at hr
          rcases List.mem_cons.mp hr with rfl | hr'
          · exact calculate_keyword_score_pos hsc
          · exact ih (k + 1) tailRes htail r hr'
      · simp only [hgt, Bool.false_eq_true, if_false] at h
        exact ih k res h r hr

/-- All scores returned by `_search_knowledge_base` have positive
denominators. -/
theorem search_knowledge_base_pos (kb : KnowledgeBase) (query : String) :
    ∀ r ∈ search_knowledge_base kb query, r.score.Pos := by
  intro r hr
  unfold search_knowledge_base at hr
  cases hgo : searchKBGo kb (pyLowerS query) with
  | error e =>
    rw [hgo] at hr
    exact absurd hr (List.not_mem_nil r)
  | ok results =>
    rw [hgo] at hr
    unfold searchKBGo at hgo
    cases hf : kbLoop (pyLowerS query) "faq" "faq_" kb.faqs 0 with
    | error e => rw [hf] at hgo; exact absurd hgo (by simp)
    | ok faqResults =>
      rw [hf] at hgo
      dsimp only at hgo
      cases hg : kbLoop (pyLowerS query) "guideline" "guideline_" kb.guidelines
          faqResults.length with
      | error e => rw [hg] at hgo; exact absurd hgo (by simp)
      | ok guidelineResults =>
        rw [hg] at hgo
        dsimp only at hgo
        simp only [Except.ok.injEq] at hgo
        rw [← hgo] at hr
        rcases List.mem_append.mp hr with h | h
        · exact kbLoop_pos kb.faqs 0 faqResults hf r h
        · exact kbLoop_pos kb.guidelines faqResults.length guidelineResults hg r h

end RagEngine

/-- C2 counterexample: with a backend configured, an embedding failure
makes `get_relevant_context` return the empty list even though keyword
search over the sample knowledge base has results for this query — the
keyword results are not returned. -/
theorem claim_C2_counterexample :
    RagEngine.get_relevant_context
      { hasBackend := true, embed := fun _ => none, vectorSearch := fun _ _ => [] }
      RagEngine.sample_nhs_data "How do I book an appointment with my GP?" 5 = []
    ∧ RagEngine.search_knowledge_base RagEngine.sample_nhs_data
        "How do I book an appointment with my GP?" ≠ [] := by
  constructor
  · rfl
  · decide

/-- C2 (amended): when a backend is configured but embedding the query
fails, `get_relevant_context` returns the empty list — it degrades to no
results at all (not to keyword-only results), and no error propagates
(the embedding is a total function). -/
theorem claim_C2_embedding_failure_empty (cfg : RagEngine.RagConfig)
    (kb : RagEngine.KnowledgeBase) (query : String) (top_k : Nat)
    (hb : cfg.hasBackend = true) (he : cfg.embed query = none) :
    RagEngine.get_relevant_context cfg kb query top_k = [] := by
  unfold RagEngine.get_relevant_context
  rw [hb, he]
  rfl

/-- Witness for C2 (amended) at a concrete configuration. -/
theorem claim_C2_embedding_failure_empty_witness :
    RagEngine.get_relevant_context
      { hasBackend := true, embed := fun _ => none, vectorSearch := fun _ _ => [] }
      RagEngine.sample_nhs_data "How do I get a repeat prescription?" 3 = [] :=
  claim_C2_embedding_failure_empty _ _ _ _ rfl rfl

/-- C7: the fused result list is sorted non-increasingly by score, has at
most `top_k` entries, and each score-equivalence class of the output is a
prefix of the corresponding class of vector-results-then-keyword-results
(stability: ties keep first-insertion order, vector before keyword). -/
theorem claim_C7_fusion_sorted_bounded_stable (cfg : RagEngine.RagConfig)
    (kb : RagEngine.KnowledgeBase) (query : String) (top_k : Nat)
    (hvec : ∀ r ∈ RagEngine.vectorPart cfg query top_k, r.score.Pos) :
    (RagEngine.get_relevant_context cfg kb query top_k).Pairwise
      (fun a b => b.score.toRat ≤ a.score.toRat)
    ∧ (RagEngine.get_relevant_context cfg kb query top_k).length ≤ top_k
    ∧ ∀ q : Frac, q.Pos →
        (RagEngine.get_relevant_context cfg kb query top_k).filter
            (fun r => Frac.beqv r.score q)
          <+: (RagEngine.vectorPart cfg query top_k
              ++ RagEngine.search_knowledge_base kb query).filter
            (fun r => Frac.beqv r.score q) := by
  unfold RagEngine.get_relevant_context
  unfold RagEngine.vectorPart at hvec ⊢
  cases hb : cfg.hasBackend with
  | false =>
    simp only [hb, Bool.false_eq_true, if_false]
    exact ⟨List.Pairwise.nil, by simp, fun q _ => by simp⟩
  | true =>
    simp only [hb, if_true] at hvec ⊢
    cases he : cfg.embed query with
    | none =>
      simp only [he]
      exact ⟨List.Pairwise.nil, by simp, fun q _ => by simp⟩
    | some v =>
      simp only [he] at hvec ⊢
      have hkb := RagEngine.search_knowledge_base_pos kb query
      have hall : ∀ z ∈ cfg.vectorSearch v top_k
          ++ RagEngine.search_knowledge_base kb query, z.score.Pos := by
        intro z hz
        rcases List.mem_append.mp hz with h | h
        · exact hvec z h
        · exact hkb z h
      have hsort := RagEngine.sortDesc_props _ hall
      refine ⟨?_, ?_, ?_⟩
      · have hpair : (RagEngine.sortDesc (cfg.vectorSearch v top_k
            ++ RagEngine.search_knowledge_base kb query)).Pairwise
            (fun a b => b.score.toRat ≤ a.score.toRat) := by
          refine hsort.2.1.imp_of_mem ?_
          intro a b ha hb' hr
          exact (Frac.ble_iff (hsort.1 b hb') (hsort.1 a ha)).mp hr
        exact hpair.sublist (List.take_sublist _ _)
      · exact List.length_take_le _ _
      · intro q hq
        have h1 := RagEngine.filter_take_leading (fun r => Frac.beqv r.score q) top_k
          (RagEngine.sortDesc (cfg.vectorSearch v top_k
            ++ RagEngine.search_knowledge_base kb query))
        have h2 := hsort.2.2 q hq
        unfold RagEngine.scoreFilter at h2
        rw [h2] at h1
        exact h1

/-- Witness for C7 at a concrete configuration: one vector result of score
1/2 plus the sample knowledge base. -/
theorem claim_C7_fusion_witness :
    (∀ r ∈ RagEngine.vectorPart
      { hasBackend := true, embed := fun _ => some [Frac.mk' 1 2],
        vectorSearch := fun _ _ =>
          [{ rid := "vec_0", score := Frac.mk' 1 2, source := "pinecone",
             kind := "vector", record := none }] }
      "How do I book an appointment with my GP?" 3, r.score.Pos)
    ∧ ((RagEngine.get_relevant_context
      { hasBackend := true, embed := fun _ => some [Frac.mk' 1 2],
        vectorSearch := fun _ _ =>
          [{ rid := "vec_0", score := Frac.mk' 1 2, source := "pinecone",
             kind := "vector", record := none }] }
      RagEngine.sample_nhs_data "How do I book an appointment with my GP?" 3).Pairwise
        (fun a b => b.score.toRat ≤ a.score.toRat)
      ∧ (RagEngine.get_relevant_context
        { hasBackend := true, embed := fun _ => some [Frac.mk' 1 2],
          vectorSearch := fun _ _ =>
            [{ rid := "vec_0", score := Frac.mk' 1 2, source := "pinecone",
               kind := "vector", record := none }] }
        RagEngine.sample_nhs_data "How do I book an appointment with my GP?" 3).length ≤ 3) := by
  refine ⟨by decide, ?_⟩
  have h := claim_C7_fusion_sorted_bounded_stable
    { hasBackend := true, embed := fun _ => some [Frac.mk' 1 2],
      vectorSearch := fun _ _ =>
        [{ rid := "vec_0", score := Frac.mk' 1 2, source := "pinecone",
           kind := "vector", record := none }] }
    RagEngine.sample_nhs_data "How do I book an appointment with my GP?" 3 (by decide)
  exact ⟨h.1, h.2.1⟩

/-- C8: the query "How do I book an appointment with my GP?" against the
sample FAQ set yields the GP-appointment FAQ as the first keyword result,
with score strictly greater than 0.1 and strictly greater than every other
keyword result. -/
theorem claim_C8_gp_appointment_first :
    ∃ gp : RagEngine.RResult,
      RagEngine.search_knowledge_base RagEngine.sample_nhs_data
          "How do I book an appointment with my GP?"
        = gp :: (RagEngine.search_knowledge_base RagEngine.sample_nhs_data
            "How do I book an appointment with my GP?").tail
      ∧ gp.record = some
          { primary := "How do I book an appointment with my GP?",
            body := "You can book an appointment by calling your GP surgery, using the NHS app, or visiting their website. Many surgeries also offer online booking systems.",
            category := "appointments",
            tags := ["gp", "appointment", "booking"] }
      ∧ gp.kind = "faq"
      ∧ (1 : ℚ) / 10 < gp.score.toRat
      ∧ ∀ r ∈ (RagEngine.search_knowledge_base RagEngine.sample_nhs_data
          "How do I book an appointment with my GP?").tail,
          r.score.toRat < gp.score.toRat := by
  refine ⟨{ rid := "faq_0", score := Frac.mk' 9 9, source := "knowledge_base",
            kind := "faq", record := some
              { primary := "How do I book an appointment with my GP?",
                body := "You can book an appointment by calling your GP surgery, using the NHS app, or visiting their website. Many surgeries also offer online booking systems.",
                category := "appointments",
                tags := ["gp", "appointment", "booking"] } },
    by decide, rfl, rfl, ?_, ?_⟩
  · rw [show (Frac.mk' 9 9).toRat = 1 by rw [Frac.toRat_mk']; norm_num]
    norm_num
  · intro r hr
    have hpos : r.score.Pos :=
      RagEngine.search_knowledge_base_pos RagEngine.sample_nhs_data
        "How do I book an appointment with my GP?" r (List.mem_of_mem_tail hr)
    have hblt : Frac.blt r.score (Frac.mk' 9 9) = true := by
      have hall : ((RagEngine.search_knowledge_base RagEngine.sample_nhs_data
          "How do I book an appointment with my GP?").tail).all
          (fun r' => Frac.blt r'.score (Frac.mk' 9 9)) = true := by decide
      exact List.all_eq_true.mp hall r hr
    exact (Frac.blt_iff hpos (by decide)).mp hblt

/-! ### The zero-token-query division (C10) -/
theorem pyLowerChar_space {c : Char} (h : isPySpace c = true) : pyLowerChar c = c := by
  unfold isPySpace at h
  simp only [Bool.or_eq_true, decide_eq_true_eq] at h
  rcases h with ((((h | h) | h) | h) | h) | h <;> subst h <;> decide

theorem pyLower_space {cs : List Char} (h : cs.all isPySpace = true) :
    pyLower cs = cs := by
  unfold pyLower
  induction cs with
  | nil => rfl
  | cons c cs ih =>
    rw [List.all_cons, Bool.and_eq_true] at h
    rw [List.map_cons, pyLowerChar_space h.1, ih h.2]

theorem pySplit_space {cs : List Char} (h : cs.all isPySpace = true) :
    pySplit cs = [] := by
  unfold pySplit
  induction cs with
  | nil => rfl
  | cons c cs ih =>
    rw [List.all_cons, Bool.and_eq_true] at h
    unfold pySplitAux
    simp only [h.1, if_true, List.isEmpty_nil]
    exact ih h.2

namespace RagEngine

/-- With a zero-token query, the per-record scorer raises the division by
zero exactly on records whose haystack has tokens. -/
theorem calculate_keyword_score_empty_query {ql : String} (hql : pySplit ql.data = []) :
    ∀ doc : KBRecord,
      ((pySplit (recordText doc)).isEmpty = false →
        calculate_keyword_score ql doc = Except.error ())
      ∧ ((pySplit (recordText doc)).isEmpty = true →
        calculate_keyword_score ql doc = Except.ok (Frac.ofInt 0)) := by
  intro doc
  unfold calculate_keyword_score
  rw [hql]
  constructor
  · intro hne
    simp [hne, dedupKeep]
  · intro he
    simp [he]

/-- With a zero-token query, `kbLoop` aborts with the division error as
soon as some record has haystack tokens. -/
theorem kbLoop_error_of_empty_query {ql kindStr idStem : String}
    (hql : pySplit ql.data = []) :
    ∀ (docs : List KBRecord) (k : Nat),
      (∃ doc ∈ docs, (pySplit (recordText doc)).isEmpty = false) →
      kbLoop ql kindStr idStem docs k = Except.error () := by
  intro docs
  induction docs with
  | nil =>
    intro k h
    obtain ⟨doc, hmem, _⟩ := h
    exact absurd hmem (List.not_mem_nil doc)
  | cons doc rest ih =>
    intro k h
    by_cases hd : (pySplit (recordText doc)).isEmpty
    · have hok := (calculate_keyword_score_empty_query hql doc).2 hd
      unfold kbLoop
      rw [hok]
      dsimp only
      rw [if_neg (by decide : ¬ Frac.blt (Frac.mk' 1 10) (Frac.ofInt 0) = true)]
      apply ih
      obtain ⟨d, hmem, hne⟩ := h
      rcases List.mem_cons.mp hmem with rfl | hmem'
      · rw [hd] at hne
        exact absurd hne (by simp)
      · exact ⟨d, hmem', hne⟩
    · have herr := (calculate_keyword_score_empty_query hql doc).1
        (by simpa using hd)
      unfold kbLoop
      rw [herr]

/-- With a zero-token query, `kbLoop` over token-free records returns no
results. -/
theorem kbLoop_ok_nil_of_empty_query {ql kindStr idStem : String}
    (hql : pySplit ql.data = []) :
    ∀ (docs : List KBRecord) (k : Nat),
      (∀ doc ∈ docs, (pySplit (recordText doc)).isEmpty = true) →
      kbLoop ql kindStr idStem docs k = Except.ok [] := by
  intro docs
  induction docs with
  | nil => intro k _; rfl
  | cons doc rest ih =>
    intro k h
    have hok := (calculate_keyword_score_empty_query hql doc).2 (h doc (by simp))
    unfold kbLoop
    rw [hok]
    dsimp only
    rw [if_neg (by decide : ¬ Frac.blt (Frac.mk' 1 10) (Frac.ofInt 0) = true)]
    exact ih k (fun d hd => h d (by simp [hd]))

end RagEngine

/-- C10: with at least one token-bearing record in the knowledge base, a
whitespace-only (or empty) query makes the per-record scorer hit the
division by the zero-sized query-token set (`Except.error`); the handler
in `_search_knowledge_base` turns this into an empty keyword-result list,
so no exception reaches `get_relevant_context`'s caller (the embedding is
total). -/
theorem claim_C10_zero_token_query_division (kb : RagEngine.KnowledgeBase)
    (query : String) (hq : query.data.all isPySpace = true)
    (hrec : ∃ doc ∈ kb.faqs ++ kb.guidelines,
      (pySplit (RagEngine.recordText doc)).isEmpty = false) :
    (∃ doc ∈ kb.faqs ++ kb.guidelines,
      RagEngine.calculate_keyword_score (RagEngine.pyLowerS query) doc
        = Except.error ())
    ∧ RagEngine.search_knowledge_base kb query = [] := by
  have hql : pySplit (RagEngine.pyLowerS query).data = [] := by
    show pySplit (pyLower query.data) = []
    rw [pyLower_space hq]
    exact pySplit_space hq
  obtain ⟨doc0, hmem0, hne0⟩ := hrec
  constructor
  · exact ⟨doc0, hmem0,
      (RagEngine.calculate_keyword_score_empty_query hql doc0).1 hne0⟩
  · unfold RagEngine.search_knowledge_base
    by_cases hfa : ∃ doc ∈ kb.faqs, (pySplit (RagEngine.recordText doc)).isEmpty = false
    · rw [show RagEngine.searchKBGo kb (RagEngine.pyLowerS query) = Except.error ()
        from ?_]
      · unfold RagEngine.searchKBGo
        rw [RagEngine.kbLoop_error_of_empty_query hql kb.faqs 0 hfa]
    · have hfall : ∀ doc ∈ kb.faqs, (pySplit (RagEngine.recordText doc)).isEmpty = true := by
        intro d hd
        by_contra hcon
        exact hfa ⟨d, hd, by simpa using hcon⟩
      have hg : ∃ doc ∈ kb.guidelines,
          (pySplit (RagEngine.recordText doc)).isEmpty = false := by
        rcases List.mem_append.mp hmem0 with h | h
        · rw [hfall doc0 h] at hne0
          exact absurd hne0 (by simp)
        · exact ⟨doc0, h, hne0⟩
      rw [show RagEngine.searchKBGo kb (RagEngine.pyLowerS query) = Except.error ()
        from ?_]
      · unfold RagEngine.searchKBGo
        rw [RagEngine.kbLoop_ok_nil_of_empty_query hql kb.faqs 0 hfall]
        dsimp only [List.length_nil]
        rw [RagEngine.kbLoop_error_of_empty_query hql kb.guidelines 0 hg]

/-- Witness for C10: the sample knowledge base and a whitespace query. -/
theorem claim_C10_zero_token_query_division_witness :
    (∃ doc ∈ RagEngine.sample_nhs_data.faqs ++ RagEngine.sample_nhs_data.guidelines,
      RagEngine.calculate_keyword_score (RagEngine.pyLowerS "   ") doc
        = Except.error ())
    ∧ RagEngine.search_knowledge_base RagEngine.sample_nhs_data "   " = [] :=
  claim_C10_zero_token_query_division RagEngine.sample_nhs_data "   "
    (by decide)
    ⟨RagEngine.sample_nhs_data.faqs.get ⟨0, by decide⟩, by decide, by decide⟩

/-! ### Conversation lifecycle and length-cap proofs -/
theorem alookup_aupdate_self {α : Type} {k : String} {v : α} {l : List (String × α)}
    {w : α} (h : alookup k l = some w) :
    alookup k (aupdate k v l) = some v := by
  induction l with
  | nil => simp [alookup] at h
  | cons p rest ih =>
    obtain ⟨k', v'⟩ := p
    by_cases hk : k' = k
    · simp [alookup, aupdate, hk]
    · simp only [alookup, aupdate, hk, if_false] at h ⊢
      exact ih h

namespace ConvManager

/-- Fact about `_update_conversation_context` only touches the derived context
fields. -/
theorem update_context_fields (c : MConversation) (m : MMessage) :
    (update_conversation_context c m).messages = c.messages
    ∧ (update_conversation_context c m).session_id = c.session_id
    ∧ (update_conversation_context c m).status = c.status
    ∧ (update_conversation_context c m).last_activity = c.last_activity := by
  simp only [update_conversation_context]
  split_ifs <;> exact ⟨rfl, rfl, rfl, rfl⟩

/-- A successful `add_message` step: below the cap, the call succeeds and
the conversation grows by exactly one message. -/
theorem add_message_step {st : ConvState} {now : Int}
    {cid role content : String} {sc : Option Frac} {conv : MConversation}
    (h : alookup cid st.conversations = some conv)
    (hlen : conv.messages.length < max_conversation_length) :
    (add_message st now cid role content sc).1 = true
    ∧ ∃ conv', alookup cid (add_message st now cid role content sc).2.conversations
        = some conv' ∧ conv'.messages.length = conv.messages.length + 1 := by
  unfold add_message
  rw [h]
  dsimp only
  rw [if_neg (by omega)]
  refine ⟨rfl, ?_⟩
  refine ⟨_, alookup_aupdate_self h, ?_⟩
  rw [(update_context_fields _ _).1]
  simp

/-- Fact about `add_message` at the cap is a rejected write: `false` and an unchanged
state. -/
theorem add_message_reject {st : ConvState} {now : Int}
    {cid role content : String} {sc : Option Frac} {conv : MConversation}
    (h : alookup cid st.conversations = some conv)
    (hlen : max_conversation_length ≤ conv.messages.length) :
    add_message st now cid role content sc = (false, st) := by
  unfold add_message
  rw [h]
  dsimp only
  rw [if_pos hlen]

/-- Iterating `add_message` below the cap: every call succeeds and the
length grows accordingly. -/
theorem add_message_iter_spec {now : Int} {cid role content : String}
    {sc : Option Frac} :
    ∀ (n : Nat) (st : ConvState) (conv : MConversation),
      alookup cid st.conversations = some conv →
      conv.messages.length + n ≤ max_conversation_length →
      (∀ b ∈ (add_message_iter st now cid role content sc n).1, b = true)
      ∧ ∃ conv', alookup cid
            (add_message_iter st now cid role content sc n).2.conversations
          = some conv' ∧ conv'.messages.length = conv.messages.length + n := by
  intro n
  induction n with
  | zero =>
    intro st conv h _
    exact ⟨by simp [add_message_iter], ⟨conv, h, by simp [add_message_iter]⟩⟩
  | succ m ih =>
    intro st conv h hle
    have hstep := @add_message_step st now cid role content sc conv h (by omega)
    obtain ⟨hb, conv', hlook, hlen⟩ := hstep
    obtain ⟨hb2, conv'', hlook2, hlen2⟩ := ih _ conv' hlook (by omega)
    unfold add_message_iter
    refine ⟨?_, conv'', hlook2, by omega⟩
    intro b hbmem
    rcases List.mem_cons.mp hbmem with rfl | hmem
    · exact hb
    · exact hb2 b hmem

end ConvManager

/-- C4: from an empty conversation, `add_message` succeeds exactly
`max_conversation_length` (100) times; the 101st call is a rejected write
(returns `false` without raising, leaving the state unchanged) and the
message count stays at the cap. -/
theorem claim_C4_length_cap (st : ConvManager.ConvState) (now : Int)
    (cid role content : String) (sc : Option Frac)
    (conv : ConvManager.MConversation)
    (h : alookup cid st.conversations = some conv)
    (h0 : conv.messages.length = 0) :
    (∀ b ∈ (ConvManager.add_message_iter st now cid role content sc 100).1, b = true)
    ∧ (ConvManager.add_message_iter st now cid role content sc 100).1.length = 100
    ∧ ConvManager.add_message
        (ConvManager.add_message_iter st now cid role content sc 100).2
        now cid role content sc
      = (false, (ConvManager.add_message_iter st now cid role content sc 100).2)
    ∧ ∃ conv', alookup cid
          (ConvManager.add_message_iter st now cid role content sc 100).2.conversations
        = some conv' ∧ conv'.messages.length = 100 := by
  have hspec := @ConvManager.add_message_iter_spec now cid role content sc 100 st conv h
    (by rw [h0]; simp [ConvManager.max_conversation_length])
  obtain ⟨hall, conv', hlook, hlen⟩ := hspec
  have hlen' : conv'.messages.length = 100 := by omega
  refine ⟨hall, ?_, ?_, conv', hlook, hlen'⟩
  · clear hall hlook hlen hlen' h h0
    induction 100 generalizing st with
    | zero => rfl
    | succ m ih =>
      unfold ConvManager.add_message_iter
      simp [ih]
  · exact ConvManager.add_message_reject hlook
      (by rw [hlen']; simp [ConvManager.max_conversation_length])

/-- Witness for C4 at the concrete fixture state. -/
theorem claim_C4_length_cap_witness :
    (∀ b ∈ (ConvManager.add_message_iter sample_state 0 "c1" "user" "hello" none 100).1,
      b = true)
    ∧ (ConvManager.add_message_iter sample_state 0 "c1" "user" "hello" none 100).1.length
        = 100
    ∧ ConvManager.add_message
        (ConvManager.add_message_iter sample_state 0 "c1" "user" "hello" none 100).2
        0 "c1" "user" "hello" none
      = (false, (ConvManager.add_message_iter sample_state 0 "c1" "user" "hello" none 100).2)
    ∧ ∃ conv', alookup "c1"
          (ConvManager.add_message_iter sample_state 0 "c1" "user" "hello" none 100).2.conversations
        = some conv' ∧ conv'.messages.length = 100 :=
  claim_C4_length_cap sample_state 0 "c1" "user" "hello" none sample_conversation
    (by decide) (by decide)

namespace ConvManager

theorem end_conversation_spec {st : ConvState} {now : Int} {cid : String}
    {conv : MConversation} (h : alookup cid st.conversations = some conv) :
    (end_conversation st now cid).1 = true
    ∧ alookup cid (end_conversation st now cid).2.conversations
        = some { conv with status := "ended", last_activity := now } := by
  unfold end_conversation
  rw [h]
  exact ⟨rfl, alookup_aupdate_self h⟩

theorem pause_conversation_spec {st : ConvState} {now : Int} {cid : String}
    {conv : MConversation} (h : alookup cid st.conversations = some conv) :
    (pause_conversation st now cid).1 = true
    ∧ alookup cid (pause_conversation st now cid).2.conversations
        = some { conv with status := "paused", last_activity := now } := by
  unfold pause_conversation
  rw [h]
  exact ⟨rfl, alookup_aupdate_self h⟩

theorem resume_conversation_spec {st : ConvState} {now : Int} {cid : String}
    {conv : MConversation} (h : alookup cid st.conversations = some conv) :
    (resume_conversation st now cid).1 = true
    ∧ alookup cid (resume_conversation st now cid).2.conversations
        = some { conv with status := "active", last_activity := now } := by
  unfold resume_conversation
  rw [h]
  exact ⟨rfl, alookup_aupdate_self h⟩

end ConvManager

/-- C3 counterexample: ending a conversation is not terminal — a
subsequent `pause_conversation` succeeds (returns `True`) and overwrites
the status with 'paused'. -/
theorem claim_C3_counterexample :
    (ConvManager.pause_conversation
      (ConvManager.end_conversation sample_state 0 "c1").2 1 "c1").1 = true
    ∧ (alookup "c1" (ConvManager.pause_conversation
        (ConvManager.end_conversation sample_state 0 "c1").2 1 "c1").2.conversations).map
        ConvManager.MConversation.status = some "paused" := by
  constructor
  · rfl
  · rfl

/-- C3 (amended): the status setters only check existence, so 'ended' is
not terminal: after `end_conversation` both `pause_conversation` and
`resume_conversation` still succeed and overwrite the status; and
`pause_conversation` followed by `resume_conversation` on an existing
conversation leaves the status 'active'. -/
theorem claim_C3_status_transitions (st : ConvManager.ConvState)
    (t1 t2 t3 : Int) (cid : String) (conv : ConvManager.MConversation)
    (h : alookup cid st.conversations = some conv) :
    (ConvManager.end_conversation st t1 cid).1 = true
    ∧ (alookup cid (ConvManager.end_conversation st t1 cid).2.conversations).map
        ConvManager.MConversation.status = some "ended"
    ∧ (ConvManager.pause_conversation
        (ConvManager.end_conversation st t1 cid).2 t2 cid).1 = true
    ∧ (alookup cid (ConvManager.pause_conversation
        (ConvManager.end_conversation st t1 cid).2 t2 cid).2.conversations).map
        ConvManager.MConversation.status = some "paused"
    ∧ (ConvManager.resume_conversation (ConvManager.pause_conversation
        (ConvManager.end_conversation st t1 cid).2 t2 cid).2 t3 cid).1 = true
    ∧ (alookup cid (ConvManager.resume_conversation (ConvManager.pause_conversation
        (ConvManager.end_conversation st t1 cid).2 t2 cid).2 t3 cid).2.conversations).map
        ConvManager.MConversation.status = some "active"
    ∧ (ConvManager.resume_conversation
        (ConvManager.pause_conversation st t1 cid).2 t2 cid).1 = true
    ∧ (alookup cid (ConvManager.resume_conversation
        (ConvManager.pause_conversation st t1 cid).2 t2 cid).2.conversations).map
        ConvManager.MConversation.status = some "active" := by
  obtain ⟨he1, he2⟩ := @ConvManager.end_conversation_spec st t1 cid conv h
  obtain ⟨hp1, hp2⟩ := @ConvManager.pause_conversation_spec _ t2 cid _ he2
  obtain ⟨hr1, hr2⟩ := @ConvManager.resume_conversation_spec _ t3 cid _ hp2
  obtain ⟨hq1, hq2⟩ := @ConvManager.pause_conversation_spec st t1 cid conv h
  obtain ⟨hs1, hs2⟩ := @ConvManager.resume_conversation_spec _ t2 cid _ hq2
  refine ⟨he1, ?_, hp1, ?_, hr1, ?_, hs1, ?_⟩ <;> simp [he2, hp2, hr2, hs2]

/-- Witness for C3 (amended) at the concrete fixture state. -/
theorem claim_C3_status_transitions_witness :
    (ConvManager.end_conversation sample_state 0 "c1").1 = true
    ∧ (alookup "c1" (ConvManager.end_conversation sample_state 0 "c1").2.conversations).map
        ConvManager.MConversation.status = some "ended"
    ∧ (ConvManager.pause_conversation
        (ConvManager.end_conversation sample_state 0 "c1").2 1 "c1").1 = true
    ∧ (alookup "c1" (ConvManager.pause_conversation
        (ConvManager.end_conversation sample_state 0 "c1").2 1 "c1").2.conversations).map
        ConvManager.MConversation.status = some "paused"
    ∧ (ConvManager.resume_conversation (ConvManager.pause_conversation
        (ConvManager.end_conversation sample_state 0 "c1").2 1 "c1").2 2 "c1").1 = true
    ∧ (alookup "c1" (ConvManager.resume_conversation (ConvManager.pause_conversation
        (ConvManager.end_conversation sample_state 0 "c1").2 1 "c1").2 2 "c1").2.conversations).map
        ConvManager.MConversation.status = some "active"
    ∧ (ConvManager.resume_conversation
        (ConvManager.pause_conversation sample_state 0 "c1").2 1 "c1").1 = true
    ∧ (alookup "c1" (ConvManager.resume_conversation
        (ConvManager.pause_conversation sample_state 0 "c1").2 1 "c1").2.conversations).map
        ConvManager.MConversation.status = some "active" :=
  claim_C3_status_transitions sample_state 0 1 2 "c1" sample_conversation (by decide)

/-! ### Association-list lemmas for the cleanup sweep -/
theorem alookup_eq_none_of_not_mem_keys {α : Type} {k : String}
    {l : List (String × α)} (h : k ∉ l.map Prod.fst) : alookup k l = none := by
  induction l with
  | nil => rfl
  | cons p rest ih =>
    obtain ⟨k0, v0⟩ := p
    simp only [List.map_cons, List.mem_cons] at h
    push_neg at h
    unfold alookup
    rw [if_neg (Ne.symm h.1)]
    exact ih h.2

theorem alookup_mem {α : Type} {k : String} {v : α} {l : List (String × α)}
    (h : alookup k l = some v) : (k, v) ∈ l := by
  induction l with
  | nil => simp [alookup] at h
  | cons p rest ih =>
    obtain ⟨k0, v0⟩ := p
    unfold alookup at h
    by_cases hk : k0 = k
    · rw [if_pos hk] at h
      injection h with h
      subst hk
      subst h
      simp
    · rw [if_neg hk] at h
      exact List.mem_cons_of_mem _ (ih h)

theorem alookup_of_mem_nodup {α : Type} {k : String} {v : α}
    {l : List (String × α)} (hnd : (l.map Prod.fst).Nodup)
    (h : (k, v) ∈ l) : alookup k l = some v := by
  induction l with
  | nil => simp at h
  | cons p rest ih =>
    obtain ⟨k0, v0⟩ := p
    simp only [List.map_cons, List.nodup_cons] at hnd
    rcases List.mem_cons.mp h with heq | hmem
    · injection heq with h1 h2
      subst h1
      subst h2
      unfold alookup
      rw [if_pos rfl]
    · have hk : k0 ≠ k := by
        rintro rfl
        exact hnd.1 (List.mem_map.mpr ⟨(k0, v), hmem, rfl⟩)
      unfold alookup
      rw [if_neg hk]
      exact ih hnd.2 hmem

theorem aerase_sublist {α : Type} (k : String) (l : List (String × α)) :
    List.Sublist (aerase k l) l := by
  induction l with
  | nil => simp [aerase]
  | cons p rest ih =>
    obtain ⟨k0, v0⟩ := p
    unfold aerase
    by_cases hk : k0 = k
    · rw [if_pos hk]
      exact List.sublist_cons_self _ _
    · rw [if_neg hk]
      exact ih.cons₂ _

theorem aerase_keys_sublist {α : Type} (k : String) (l : List (String × α)) :
    List.Sublist ((aerase k l).map Prod.fst) (l.map Prod.fst) :=
  (aerase_sublist k l).map Prod.fst

theorem aerase_keys_nodup {α : Type} {k : String} {l : List (String × α)}
    (h : (l.map Prod.fst).Nodup) : ((aerase k l).map Prod.fst).Nodup :=
  h.sublist (aerase_keys_sublist k l)

theorem alookup_aerase_self {α : Type} {k : String} {l : List (String × α)}
    (hnd : (l.map Prod.fst).Nodup) : alookup k (aerase k l) = none := by
  induction l with
  | nil => rfl
  | cons p rest ih =>
    obtain ⟨k0, v0⟩ := p
    simp only [List.map_cons, List.nodup_cons] at hnd
    unfold aerase
    by_cases hk : k0 = k
    · rw [if_pos hk]
      subst hk
      exact alookup_eq_none_of_not_mem_keys hnd.1
    · rw [if_neg hk]
      unfold alookup
      rw [if_neg hk]
      exact ih hnd.2

theorem alookup_aerase_ne {α : Type} {k k' : String} (hne : k' ≠ k)
    (l : List (String × α)) : alookup k' (aerase k l) = alookup k' l := by
  induction l with
  | nil => rfl
  | cons p rest ih =>
    obtain ⟨k0, v0⟩ := p
    unfold aerase
    by_cases hk : k0 = k
    · rw [if_pos hk]
      subst hk
      conv_rhs => unfold alookup
      rw [if_neg (fun h : k0 = k' => hne h.symm)]
    · rw [if_neg hk]
      unfold alookup
      by_cases hk' : k0 = k'
      · rw [if_pos hk', if_pos hk']
      · rw [if_neg hk', if_neg hk']
        exact ih

theorem alookup_none_aerase {α : Type} {k : String} {l : List (String × α)}
    (h : alookup k l = none) (k' : String) : alookup k (aerase k' l) = none := by
  by_cases hk : k = k'
  · subst hk
    induction l with
    | nil => rfl
    | cons p rest ih =>
      obtain ⟨k0, v0⟩ := p
      unfold alookup at h
      by_cases h0 : k0 = k
      · rw [if_pos h0] at h
        exact absurd h (by simp)
      · rw [if_neg h0] at h
        unfold aerase
        rw [if_neg h0]
        unfold alookup
        rw [if_neg h0]
        exact ih h
  · rw [alookup_aerase_ne hk l]
    exact h

namespace ConvManager

theorem erase_fold_none {α : Type} {k : String} :
    ∀ (ids : List String) (l : List (String × α)), alookup k l = none →
      alookup k (ids.foldl (fun cs c => aerase c cs) l) = none := by
  intro ids
  induction ids with
  | nil => intro l h; exact h
  | cons c rest ih =>
    intro l h
    exact ih _ (alookup_none_aerase h c)

theorem erase_fold_keys_nodup {α : Type} :
    ∀ (ids : List String) (l : List (String × α)),
      (l.map Prod.fst).Nodup →
      ((ids.foldl (fun cs c => aerase c cs) l).map Prod.fst).Nodup := by
  intro ids
  induction ids with
  | nil => intro l h; exact h
  | cons c rest ih =>
    intro l h
    exact ih _ (aerase_keys_nodup h)

theorem erase_fold_mem_none {α : Type} {k : String} :
    ∀ (ids : List String) (l : List (String × α)),
      (l.map Prod.fst).Nodup → k ∈ ids →
      alookup k (ids.foldl (fun cs c => aerase c cs) l) = none := by
  intro ids
  induction ids with
  | nil => intro l _ h; exact absurd h (List.not_mem_nil k)
  | cons c rest ih =>
    intro l hnd hmem
    rcases List.mem_cons.mp hmem with rfl | hmem'
    · exact erase_fold_none rest _ (alookup_aerase_self hnd)
    · exact ih _ (aerase_keys_nodup hnd) hmem'

theorem erase_fold_not_mem {α : Type} {k : String} :
    ∀ (ids : List String) (l : List (String × α)), k ∉ ids →
      alookup k (ids.foldl (fun cs c => aerase c cs) l) = alookup k l := by
  intro ids
  induction ids with
  | nil => intro l _; rfl
  | cons c rest ih =>
    intro l hnm
    have hc : k ≠ c := fun h => hnm (h ▸ List.mem_cons_self c rest)
    rw [List.foldl_cons, ih _ (fun h => hnm (List.mem_cons_of_mem c h)),
      alookup_aerase_ne hc]

theorem erase_fold_sublist {α : Type} :
    ∀ (ids : List String) (l : List (String × α)),
      List.Sublist (ids.foldl (fun cs c => aerase c cs) l) l := by
  intro ids
  induction ids with
  | nil => intro l; exact List.Sublist.refl l
  | cons c rest ih =>
    intro l
    exact (ih _).trans (aerase_sublist c l)

theorem cleanup_session_WF {st : ConvState} {sid : String} (h : WF st) :
    WF (cleanup_session st sid) := by
  unfold cleanup_session
  cases alookup sid st.sessions with
  | none => exact h
  | some sd =>
    exact ⟨erase_fold_keys_nodup _ _ h.1, aerase_keys_nodup h.2⟩

theorem cleanup_session_sessions_ne {st : ConvState} {sid sid' : String}
    (hne : sid' ≠ sid) :
    alookup sid' (cleanup_session st sid).sessions = alookup sid' st.sessions := by
  unfold cleanup_session
  cases alookup sid st.sessions with
  | none => rfl
  | some sd => exact alookup_aerase_ne hne st.sessions

theorem cleanup_session_sessions_self {st : ConvState} {sid : String}
    (h : (st.sessions.map Prod.fst).Nodup) :
    alookup sid (cleanup_session st sid).sessions = none := by
  unfold cleanup_session
  cases hl : alookup sid st.sessions with
  | none => exact hl
  | some sd => exact alookup_aerase_self h

theorem cleanup_session_sessions_none_preserved {st : ConvState}
    {sid s' : String} (h : alookup sid st.sessions = none) :
    alookup sid (cleanup_session st s').sessions = none := by
  unfold cleanup_session
  cases alookup s' st.sessions with
  | none => exact h
  | some sd => exact alookup_none_aerase h s'

theorem cleanup_session_conv_none {st : ConvState} {cid s' : String}
    (h : alookup cid st.conversations = none) :
    alookup cid (cleanup_session st s').conversations = none := by
  unfold cleanup_session
  cases alookup s' st.sessions with
  | none => exact h
  | some sd => exact erase_fold_none _ _ h

theorem cleanup_session_cascade {st : ConvState} {sid : String}
    {sd : SessionData} (hwf : WF st)
    (h : alookup sid st.sessions = some sd) :
    ∀ cid ∈ sd.conversation_ids,
      alookup cid (cleanup_session st sid).conversations = none := by
  intro cid hcid
  unfold cleanup_session
  rw [h]
  exact erase_fold_mem_none _ _ hwf.1 hcid

theorem sessfold_WF :
    ∀ (sids : List String) (st : ConvState), WF st →
      WF (sids.foldl cleanup_session st) := by
  intro sids
  induction sids with
  | nil => intro st h; exact h
  | cons s rest ih => intro st h; exact ih _ (cleanup_session_WF h)

theorem sessfold_sessions_not_mem {sid : String} :
    ∀ (sids : List String) (st : ConvState), sid ∉ sids →
      alookup sid (sids.foldl cleanup_session st).sessions
        = alookup sid st.sessions := by
  intro sids
  induction sids with
  | nil => intro st _; rfl
  | cons s rest ih =>
    intro st hnm
    rw [List.foldl_cons, ih _ (fun h => hnm (List.mem_cons_of_mem s h)),
      cleanup_session_sessions_ne
        (fun h : sid = s => hnm (h ▸ List.mem_cons_self s rest))]

theorem sessfold_sessions_preserve_none {sid : String} :
    ∀ (sids : List String) (st : ConvState),
      alookup sid st.sessions = none →
      alookup sid (sids.foldl cleanup_session st).sessions = none := by
  intro sids
  induction sids with
  | nil => intro st h; exact h
  | cons s rest ih =>
    intro st h
    exact ih _ (cleanup_session_sessions_none_preserved h)

theorem sessfold_sessions_none {sid : String} :
    ∀ (sids : List String) (st : ConvState), WF st → sid ∈ sids →
      alookup sid (sids.foldl cleanup_session st).sessions = none := by
  intro sids
  induction sids with
  | nil => intro st _ h; exact absurd h (List.not_mem_nil sid)
  | cons s rest ih =>
    intro st hwf hmem
    rcases List.mem_cons.mp hmem with rfl | hmem'
    · exact sessfold_sessions_preserve_none rest _
        (cleanup_session_sessions_self hwf.2)
    · exact ih _ (cleanup_session_WF hwf) hmem'

theorem sessfold_conv_none_preserved {cid : String} :
    ∀ (sids : List String) (st : ConvState),
      alookup cid st.conversations = none →
      alookup cid (sids.foldl cleanup_session st).conversations = none := by
  intro sids
  induction sids with
  | nil => intro st h; exact h
  | cons s rest ih =>
    intro st h
    exact ih _ (cleanup_session_conv_none h)

theorem sessfold_cascade {sid : String} {sd : SessionData} :
    ∀ (sids : List String) (st : ConvState), WF st → sids.Nodup →
      sid ∈ sids → alookup sid st.sessions = some sd →
      ∀ cid ∈ sd.conversation_ids,
        alookup cid (sids.foldl cleanup_session st).conversations = none := by
  intro sids
  induction sids with
  | nil => intro st _ _ h _; exact absurd h (List.not_mem_nil sid)
  | cons s rest ih =>
    intro st hwf hnd hmem hsd cid hcid
    rcases List.mem_cons.mp hmem with rfl | hmem'
    · exact sessfold_conv_none_preserved rest _
        (cleanup_session_cascade hwf hsd cid hcid)
    · have hne : sid ≠ s := by
        rintro rfl
        exact (List.nodup_cons.mp hnd).1 hmem'
      have hsd' : alookup sid (cleanup_session st s).sessions = some sd := by
        rw [cleanup_session_sessions_ne hne]
        exact hsd
      exact ih _ (cleanup_session_WF hwf) (List.nodup_cons.mp hnd).2 hmem' hsd'
        cid hcid

end ConvManager

/-- C9: `cleanup_old_conversations` removes every session whose last
activity is older than `max_session_duration`, cascading to all of its
conversations, and retains (unchanged) every session within the
threshold.  Deletion of an already-deleted conversation is a no-op, so
the two passes never interfere. -/
theorem claim_C9_cleanup_cascade (st : ConvManager.ConvState) (now : Int)
    (hwf : ConvManager.WF st) :
    (∀ sid sd, alookup sid st.sessions = some sd →
      ConvManager.max_session_duration < now - sd.last_activity →
      alookup sid (ConvManager.cleanup_old_conversations st now).sessions = none
      ∧ ∀ cid ∈ sd.conversation_ids,
          alookup cid
            (ConvManager.cleanup_old_conversations st now).conversations = none)
    ∧ (∀ sid sd, alookup sid st.sessions = some sd →
      now - sd.last_activity ≤ ConvManager.max_session_duration →
      alookup sid (ConvManager.cleanup_old_conversations st now).sessions
        = some sd) := by
  unfold ConvManager.cleanup_old_conversations
  dsimp only
  constructor
  · intro sid sd hsd hcond
    have hmemP : (sid, sd) ∈ st.sessions := alookup_mem hsd
    have hfilter : (sid, sd) ∈ st.sessions.filter
        (fun p => ConvManager.max_session_duration < now - p.2.last_activity) :=
      List.mem_filter.mpr ⟨hmemP, decide_eq_true hcond⟩
    have hmemE : sid ∈ (st.sessions.filter
        (fun p => ConvManager.max_session_duration < now - p.2.last_activity)).map
        Prod.fst :=
      List.mem_map.mpr ⟨(sid, sd), hfilter, rfl⟩
    have hndE : ((st.sessions.filter
        (fun p => ConvManager.max_session_duration < now - p.2.last_activity)).map
        Prod.fst).Nodup :=
      hwf.2.sublist ((List.filter_sublist _).map Prod.fst)
    refine ⟨?_, ?_⟩
    · exact ConvManager.sessfold_sessions_none _ _ hwf hmemE
    · intro cid hcid
      exact ConvManager.erase_fold_none _ _
        (ConvManager.sessfold_cascade _ _ hwf hndE hmemE hsd cid hcid)
  · intro sid sd hsd hle
    have hnm : sid ∉ (st.sessions.filter
        (fun p => ConvManager.max_session_duration < now - p.2.last_activity)).map
        Prod.fst := by
      intro hmem
      obtain ⟨⟨sid', sd'⟩, hfil, heq⟩ := List.mem_map.mp hmem
      obtain ⟨hmem', hcond⟩ := List.mem_filter.mp hfil
      dsimp only at heq
      subst heq
      have := alookup_of_mem_nodup hwf.2 hmem'
      rw [hsd] at this
      injection this with this
      subst this
      have hcond' := of_decide_eq_true hcond
      dsimp only at hcond'
      omega
    rw [ConvManager.sessfold_sessions_not_mem _ _ hnm]
    exact hsd

/-- Witness for C9: the 25-hour-old session and both its conversations are
removed; the 1-hour-old session survives untouched. -/
theorem claim_C9_cleanup_cascade_witness :
    alookup "old" (ConvManager.cleanup_old_conversations cleanup_state 90000).sessions
      = none
    ∧ alookup "c1"
        (ConvManager.cleanup_old_conversations cleanup_state 90000).conversations
      = none
    ∧ alookup "c2"
        (ConvManager.cleanup_old_conversations cleanup_state 90000).conversations
      = none
    ∧ alookup "fresh"
        (ConvManager.cleanup_old_conversations cleanup_state 90000).sessions
      = some fresh_session := by
  have h := claim_C9_cleanup_cascade cleanup_state 90000 (by constructor <;> decide)
  have hexp := h.1 "old" old_session (by decide) (by decide)
  exact ⟨hexp.1, hexp.2 "c1" (by decide), hexp.2 "c2" (by decide),
    h.2 "fresh" fresh_session (by decide) (by decide)⟩

/-- Fact about `check_message_safety` always returns a positive-denominator score. -/
theorem check_message_safety_pos (t : Option String) :
    (SafetyChecker.check_message_safety t).Pos := by
  cases t with
  | none => exact Frac.pos_ofInt 0
  | some m =>
    unfold SafetyChecker.check_message_safety
    by_cases he : m = ""
    · simp only [he, if_true]
      exact Frac.pos_ofInt 0
    · simp only [he, if_false]
      have hov := calculate_overall_safety_bounds _ _ _
        (calculate_risk_score_bounds (pyLower m.data) "high_risk")
        (calculate_risk_score_bounds (pyLower m.data) "medium_risk")
        (calculate_risk_score_bounds (pyLower m.data) "low_risk")
      have hcp := check_compliance_bounds (pyLower m.data)
      unfold Frac.fmin
      split
      · exact hcp.1
      · exact hov.1

/-- C1 counterexample: a message scoring below the 0.8 threshold is
answered with the canned safety response, but the chatbot state is left
untouched — the risky user message is *not* recorded in the conversation
history. -/
theorem claim_C1_counterexample :
    Frac.blt (SafetyChecker.check_message_safety
      (some "diagnose treatment prescribe cure medicine drug emergency fatal critical"))
      Chatbot.safety_threshold = true
    ∧ Chatbot.process_message
        { hasLLM := false, generate := fun _ => "", gdprCompliance := false,
          encrypt := fun s => s }
        { conversations := [] } 0
        "diagnose treatment prescribe cure medicine drug emergency fatal critical"
        "default"
      = (Chatbot.safety_response, { conversations := [] })
    ∧ alookup "default"
        (Chatbot.process_message
          { hasLLM := false, generate := fun _ => "", gdprCompliance := false,
            encrypt := fun s => s }
          { conversations := [] } 0
          "diagnose treatment prescribe cure medicine drug emergency fatal critical"
          "default").2.conversations = none := by
  refine ⟨by decide, by decide, by decide⟩

/-- C1 (amended): when the user message scores below the 0.8 safety
threshold, `process_message` returns the fixed safe fallback string and
stops: no generation happens (the result is the same for every backend
configuration) and the state is unchanged — in particular the risky
message is *not* recorded in the history. -/
theorem claim_C1_safety_gate (cfg : Chatbot.BotConfig) (st : Chatbot.BotState)
    (now : Int) (user_message session_id : String)
    (h : (SafetyChecker.check_message_safety (some user_message)).toRat
      < 4 / 5) :
    Chatbot.process_message cfg st now user_message session_id
      = (Chatbot.safety_response, st) := by
  have hblt : Frac.blt (SafetyChecker.check_message_safety (some user_message))
      Chatbot.safety_threshold = true := by
    rw [Frac.blt_iff (check_message_safety_pos (some user_message))
      (by decide : Chatbot.safety_threshold.Pos)]
    rw [show Chatbot.safety_threshold.toRat = 4 / 5 by
      rw [show Chatbot.safety_threshold = Frac.mk' 8 10 from rfl, Frac.toRat_mk']
      norm_num]
    exact h
  unfold Chatbot.process_message
  dsimp only
  rw [hblt]
  rfl

/-- Witness for C1 (amended) at the concrete risky message. -/
theorem claim_C1_safety_gate_witness :
    Chatbot.process_message
      { hasLLM := true, generate := fun _ => "generated text",
        gdprCompliance := false, encrypt := fun s => s }
      { conversations := [] } 0
      "diagnose treatment prescribe cure medicine drug emergency fatal critical"
      "default"
    = (Chatbot.safety_response, { conversations := [] }) := by
  refine claim_C1_safety_gate _ _ _ _ _ ?_
  have h := (Frac.blt_iff (check_message_safety_pos
    (some "diagnose treatment prescribe cure medicine drug emergency fatal critical"))
    (by decide : Chatbot.safety_threshold.Pos)).mp (by decide)
  rw [show Chatbot.safety_threshold.toRat = 4 / 5 by
    rw [show Chatbot.safety_threshold = Frac.mk' 8 10 from rfl, Frac.toRat_mk']
    norm_num] at h
  exact h
